import Mathlib

/-!
Shallow embedding of the support-map-vs-support-map persistent contact
manifold generator of ncollide
(src/ncollide_pipeline/narrow_phase/contact_generator/
 support_map_support_map_manifold_generator.rs).

Scalars are embedded as exact rationals (the Rust code is generic over a
`Real` scalar; no claim under scrutiny depends on floating-point rounding).
Rust panics (indexing out of bounds, `Option::unwrap`, `expect`) are
embedded as `Except.error` with a message identifying the panic site.
External collaborators (the GJK query, the shape support functions, the
orthonormal-basis routine of nalgebra) are taken as explicit functional
parameters, mirroring the trait-object calls of the source.
-/

unseal Rat.add Rat.mul Rat.sub Rat.inv

deriving instance DecidableEq for Except

/-- 2D vector / point over exact rationals. -/
structure V2 where
  x : ℚ
  y : ℚ
deriving DecidableEq, Repr

/-- 3D vector / point over exact rationals. -/
structure V3 where
  x : ℚ
  y : ℚ
  z : ℚ
deriving DecidableEq, Repr

instance : Add V2 := ⟨fun u v => ⟨u.x + v.x, u.y + v.y⟩⟩
instance : Sub V2 := ⟨fun u v => ⟨u.x - v.x, u.y - v.y⟩⟩
instance : Neg V2 := ⟨fun u => ⟨-u.x, -u.y⟩⟩
instance : Zero V2 := ⟨⟨0, 0⟩⟩
instance : SMul ℚ V2 := ⟨fun c u => ⟨c * u.x, c * u.y⟩⟩

instance : Add V3 := ⟨fun u v => ⟨u.x + v.x, u.y + v.y, u.z + v.z⟩⟩
instance : Sub V3 := ⟨fun u v => ⟨u.x - v.x, u.y - v.y, u.z - v.z⟩⟩
instance : Neg V3 := ⟨fun u => ⟨-u.x, -u.y, -u.z⟩⟩
instance : Zero V3 := ⟨⟨0, 0, 0⟩⟩
instance : SMul ℚ V3 := ⟨fun c u => ⟨c * u.x, c * u.y, c * u.z⟩⟩

@[simp] theorem v2_add_def (u v : V2) : u + v = ⟨u.x + v.x, u.y + v.y⟩ := rfl
@[simp] theorem v2_sub_def (u v : V2) : u - v = ⟨u.x - v.x, u.y - v.y⟩ := rfl
@[simp] theorem v2_neg_def (u : V2) : -u = ⟨-u.x, -u.y⟩ := rfl
@[simp] theorem v2_smul_def (c : ℚ) (u : V2) : c • u = ⟨c * u.x, c * u.y⟩ := rfl
@[simp] theorem v2_zero_def : (0 : V2) = ⟨0, 0⟩ := rfl
@[simp] theorem v3_add_def (u v : V3) :
    u + v = ⟨u.x + v.x, u.y + v.y, u.z + v.z⟩ := rfl
@[simp] theorem v3_sub_def (u v : V3) :
    u - v = ⟨u.x - v.x, u.y - v.y, u.z - v.z⟩ := rfl
@[simp] theorem v3_neg_def (u : V3) : -u = ⟨-u.x, -u.y, -u.z⟩ := rfl
@[simp] theorem v3_smul_def (c : ℚ) (u : V3) :
    c • u = ⟨c * u.x, c * u.y, c * u.z⟩ := rfl
@[simp] theorem v3_zero_def : (0 : V3) = ⟨0, 0, 0⟩ := rfl

/-- Inner product of two 2D vectors (`na::dot`). -/
def dot2 (u v : V2) : ℚ := u.x * v.x + u.y * v.y

/-- Inner product of two 3D vectors (`na::dot`). -/
def dot3 (u v : V3) : ℚ := u.x * v.x + u.y * v.y + u.z * v.z

/-- 2D cross product (perp product). -/
def cross2 (u v : V2) : ℚ := u.x * v.y - u.y * v.x

/-- `na::clamp(x, 0, 1)`. -/
def clampQ (x : ℚ) : ℚ := if x < 0 then 0 else if 1 < x then 1 else x

/-- Geometric feature identifier of a convex shape
(`geometry::shape::FeatureId`): a stable tagged index. -/
inductive FeatureId where
  | vertex (i : ℕ)
  | edge (i : ℕ)
  | face (i : ℕ)
  | unknown
deriving DecidableEq, Repr

/-- Location of a point on a segment
(`geometry::shape::SegmentPointLocation`): one of the two vertices, or an
interior point with barycentric coordinates. -/
inductive SegLoc where
  | OnVertex (i : ℕ)
  | OnEdge (u v : ℚ)
deriving DecidableEq, Repr

/-- A segment (`geometry::shape::Segment`). -/
structure Seg (P : Type) where
  a : P
  b : P
deriving DecidableEq, Repr

/-- `Segment::swap`: exchanges the two endpoints. -/
def Seg.swap {P : Type} (s : Seg P) : Seg P := ⟨s.b, s.a⟩

/-- `Segment::point_at`: the point of the segment at the given location. -/
def Seg.point_at {P : Type} [Add P] [SMul ℚ P] (s : Seg P) (loc : SegLoc) : P :=
  match loc with
  | .OnVertex 0 => s.a
  | .OnVertex _ => s.b
  | .OnEdge u v => u • s.a + v • s.b

/-- A contact (`geometry::query::Contact`): the two world-space witness
points, the contact normal, and the signed depth. -/
structure Contact (P : Type) where
  world1 : P
  world2 : P
  normal : P
  depth : ℚ
deriving DecidableEq, Repr

/-- `Contact::new_wo_depth` for 2D points. Modelled from the spec: the
depth is the signed penetration depth along the normal, derived from the
two witness points. -/
def Contact.new_wo_depth2 (w1 w2 n : V2) : Contact V2 :=
  ⟨w1, w2, n, -(dot2 n (w2 - w1))⟩

/-- `Contact::new_wo_depth` for 3D points. Modelled from the spec: the
depth is the signed penetration depth along the normal, derived from the
two witness points. -/
def Contact.new_wo_depth3 (w1 w2 n : V3) : Contact V3 :=
  ⟨w1, w2, n, -(dot3 n (w2 - w1))⟩

/-- A convex polyface (`geometry::shape::ConvexPolyface`). Modelled from
the spec (the type itself lives outside the supplied sources): an ordered
vertex loop, parallel per-vertex and per-edge feature ids, an optional
outward face normal, a whole-feature id, and — for the kinematic
classifier — the optionally retrievable unit direction of each edge. -/
structure ConvexPolyface (P : Type) where
  vertices : List P
  vertices_id : List FeatureId
  edges_id : List FeatureId
  normal : Option P
  feature_id : FeatureId
  edge_dirs : List (Option P)
deriving DecidableEq, Repr

/-- `ConvexPolyface::clear` / `ConvexPolyface::new`: the empty polyface.
Modelled from the spec: no vertices, no normal, whole-feature id unset. -/
def ConvexPolyface.empty (P : Type) : ConvexPolyface P :=
  ⟨[], [], [], none, .unknown, []⟩

/-- `ConvexPolyface::nedges`. Modelled from the spec: a polygon of `n ≥ 3`
vertices has `n` edges (wrapping), a segment has one edge, a point or an
empty polyface has none. -/
def ConvexPolyface.nedges {P : Type} (pf : ConvexPolyface P) : ℕ :=
  if 2 < pf.vertices.length then pf.vertices.length
  else if pf.vertices.length = 2 then 1
  else 0

/-- `ConvexPolyface::edge` composed with `Edge::direction`. Modelled from
the spec: an edge feature id resolves to the polyface's edge of that index
(failing for an invalid id), which carries an optionally retrievable unit
direction. -/
def ConvexPolyface.edge_dir {P : Type} (pf : ConvexPolyface P) (f : FeatureId) :
    Option (Option P) :=
  match f with
  | .edge i => pf.edge_dirs.get? i
  | _ => none

/-- Panic message for an out-of-bounds slice index. -/
def idxMsg : String := "index out of bounds"

/-- Panic message for unwrapping the absent outward normal of a polyface. -/
def normalMsg : String := "missing face normal"

/-- Panic message of `manifold.edge(f).expect(..)` for an invalid edge id. -/
def invalidEdgeMsg : String := "Invalid edge id."

/-- Panic message for `direction().unwrap()` on a degenerate edge. -/
def missingDirMsg : String := "missing edge direction"

/-- Lifts an optional value into `Except`, erroring with the panic message
of the corresponding Rust panic site. -/
def exceptOfOption {α : Type} (msg : String) : Option α → Except String α
  | some a => .ok a
  | none => .error msg

/-- Sorting step of the 2D clipping branch (lines 177–187 of the source):
reorders one segment so that its projected range is ascending, swapping the
endpoint feature ids and the segment endpoints along with the range. -/
def sortRange (ra rb : ℚ) (fa fb : FeatureId) (s : Seg V2) :
    (ℚ × ℚ) × (FeatureId × FeatureId) × Seg V2 :=
  if rb < ra then ((rb, ra), (fb, fa), s.swap) else ((ra, rb), (fa, fb), s)

/-- The 2D branch of `clip_polyfaces` (lines 153–231 of the source): clips
two segments against each other along the axis orthogonal to the contact
normal, producing zero contacts (degenerate input or disjoint projected
ranges) or exactly two contacts. -/
def clip_polyfaces_2d (m1 m2 : ConvexPolyface V2) (normal : V2) :
    Except String (List (Contact V2 × FeatureId × FeatureId)) :=
  if m1.vertices.length ≤ 1 ∨ m2.vertices.length ≤ 1 then .ok []
  else do
    let ortho : V2 := ⟨-normal.y, normal.x⟩
    let a1 ← exceptOfOption idxMsg (m1.vertices.get? 0)
    let a2 ← exceptOfOption idxMsg (m1.vertices.get? 1)
    let b1 ← exceptOfOption idxMsg (m2.vertices.get? 0)
    let b2 ← exceptOfOption idxMsg (m2.vertices.get? 1)
    let fa1 ← exceptOfOption idxMsg (m1.vertices_id.get? 0)
    let fa2 ← exceptOfOption idxMsg (m1.vertices_id.get? 1)
    let fb1 ← exceptOfOption idxMsg (m2.vertices_id.get? 0)
    let fb2 ← exceptOfOption idxMsg (m2.vertices_id.get? 1)
    let ref_pt := a1
    let s1 := sortRange (dot2 (a1 - ref_pt) ortho) (dot2 (a2 - ref_pt) ortho)
      fa1 fa2 (Seg.mk a1 a2)
    let s2 := sortRange (dot2 (b1 - ref_pt) ortho) (dot2 (b2 - ref_pt) ortho)
      fb1 fb2 (Seg.mk b1 b2)
    let range1 := s1.1
    let features1 := s1.2.1
    let seg1 := s1.2.2
    let range2 := s2.1
    let features2 := s2.2.1
    let seg2 := s2.2.2
    if range1.2 < range2.1 ∨ range2.2 < range1.1 then .ok []
    else
      let length1 := range1.2 - range1.1
      let length2 := range2.2 - range2.1
      let c1 :=
        if range1.1 < range2.1 then
          let bcoord := (range2.1 - range1.1) / length1
          let p1 := seg1.point_at (.OnEdge (1 - bcoord) bcoord)
          (Contact.new_wo_depth2 p1 seg2.a normal, m1.feature_id, features2.1)
        else
          let bcoord := (range1.1 - range2.1) / length2
          let p2 := seg2.point_at (.OnEdge (1 - bcoord) bcoord)
          (Contact.new_wo_depth2 seg1.a p2 normal, features1.1, m2.feature_id)
      let c2 :=
        if range2.2 < range1.2 then
          let bcoord := (range2.2 - range1.1) / length1
          let p1 := seg1.point_at (.OnEdge (1 - bcoord) bcoord)
          (Contact.new_wo_depth2 p1 seg2.b normal, m1.feature_id, features2.2)
        else
          let bcoord := (range1.2 - range2.1) / length2
          let p2 := seg2.point_at (.OnEdge (1 - bcoord) bcoord)
          (Contact.new_wo_depth2 seg1.b p2 normal, features1.2, m2.feature_id)
      .ok [c1, c2]

/-- `utils::point_in_poly2d`. Modelled from the spec: whether a 2D point
lies strictly inside a convex polygon, i.e. strictly on the same side of
every (wrapping) edge. -/
def point_in_poly2d (pt : V2) (poly : List V2) : Bool :=
  if poly.isEmpty then false
  else
    let n := poly.length
    let side : ℕ → ℚ := fun i =>
      cross2 (poly.getD ((i + 1) % n) 0 - poly.getD i 0) (pt - poly.getD i 0)
    ((List.range n).all fun i => decide (0 < side i))
      || ((List.range n).all fun i => decide (side i < 0))

/-- `ray_internal::plane_toi_with_line`. Modelled from the spec: the
parameter `t` such that `origin + t • dir` lies on the plane through
`center` with normal `n` (ray-casting the point onto the plane). -/
def plane_toi_with_line (center n origin dir : V3) : ℚ :=
  dot3 (center - origin) n / dot3 dir n

/-- `closest_points_internal::segment_against_segment_with_locations`.
Modelled from the spec: the locations of the closest points between two 2D
segments (the standard clamped quadratic minimisation; exact rationals, so
the degeneracy tolerance is exact zero). -/
def segment_against_segment_with_locations (s1 s2 : Seg V2) : SegLoc × SegLoc :=
  let d1 := s1.b - s1.a
  let d2 := s2.b - s2.a
  let r := s1.a - s2.a
  let a := dot2 d1 d1
  let e := dot2 d2 d2
  let f := dot2 d2 r
  let locOf : ℚ → SegLoc := fun s =>
    if s = 0 then .OnVertex 0 else if s = 1 then .OnVertex 1 else .OnEdge (1 - s) s
  if a = 0 ∧ e = 0 then (.OnVertex 0, .OnVertex 0)
  else if a = 0 then (.OnVertex 0, locOf (clampQ (f / e)))
  else
    let c := dot2 d1 r
    if e = 0 then (locOf (clampQ (-c / a)), .OnVertex 0)
    else
      let b := dot2 d1 d2
      let denom := a * e - b * b
      let s0 := if denom ≠ 0 then clampQ ((b * f - c * e) / denom) else 0
      let t0 := (b * s0 + f) / e
      if t0 < 0 then (locOf (clampQ (-c / a)), .OnVertex 0)
      else if 1 < t0 then (locOf (clampQ ((b - c) / a)), .OnVertex 1)
      else (locOf s0, locOf t0)

/-- Projection of a vertex list into the 2D basis orthogonal to the
contact normal, relative to the shared reference point (lines 252–262 of
the source). -/
def projectVerts (verts : List V3) (ref_pt b0 b1 : V3) : List V2 :=
  verts.map fun p => ⟨dot3 b0 (p - ref_pt), dot3 b1 (p - ref_pt)⟩

/-- Raw contact triple produced by the 3D clipping branch. -/
abbrev Tri3 := Contact V3 × FeatureId × FeatureId

/-- First point-in-polygon loop of the 3D clipping branch (lines 264–282
of the source): each vertex of face A whose projection lies inside face
B's projected polygon (attempted only when that polygon has more than two
vertices) is paired with its ray-cast image on face B's plane. -/
def clip3d_loop1 (cache1 cache2 : List V2) (m1 m2 : ConvexPolyface V3)
    (ref_pt b0 b1 normal : V3) : Except String (List Tri3) :=
  if 2 < cache2.length then
    (List.range cache1.length).foldlM
      (fun acc i => do
        let pt ← exceptOfOption idxMsg (cache1.get? i)
        if point_in_poly2d pt cache2 then do
          let origin := ref_pt + pt.x • b0 + pt.y • b1
          let n2 ← exceptOfOption normalMsg m2.normal
          let p2 ← exceptOfOption idxMsg (m2.vertices.get? 0)
          let toi2 := plane_toi_with_line p2 n2 origin normal
          let world2 := origin + toi2 • normal
          let world1 ← exceptOfOption idxMsg (m1.vertices.get? i)
          let f2 := m2.feature_id
          let f1 ← exceptOfOption idxMsg (m1.vertices_id.get? i)
          pure (acc ++ [(Contact.new_wo_depth3 world1 world2 normal, f1, f2)])
        else pure acc)
      []
  else pure []

/-- Second point-in-polygon loop of the 3D clipping branch (lines 284–302
of the source): symmetric to the first, with the roles of the faces
exchanged. -/
def clip3d_loop2 (cache1 cache2 : List V2) (m1 m2 : ConvexPolyface V3)
    (ref_pt b0 b1 normal : V3) : Except String (List Tri3) :=
  if 2 < cache1.length then
    (List.range cache2.length).foldlM
      (fun acc i => do
        let pt ← exceptOfOption idxMsg (cache2.get? i)
        if point_in_poly2d pt cache1 then do
          let origin := ref_pt + pt.x • b0 + pt.y • b1
          let n1 ← exceptOfOption normalMsg m1.normal
          let p1 ← exceptOfOption idxMsg (m1.vertices.get? 0)
          let toi1 := plane_toi_with_line p1 n1 origin normal
          let world1 := origin + toi1 • normal
          let world2 ← exceptOfOption idxMsg (m2.vertices.get? i)
          let f1 := m1.feature_id
          let f2 ← exceptOfOption idxMsg (m2.vertices_id.get? i)
          pure (acc ++ [(Contact.new_wo_depth3 world1 world2 normal, f1, f2)])
        else pure acc)
      []
  else pure []

/-- Body of the inner (face-B) edge loop of the 3D clipping branch (lines
310–330 of the source): tests the fixed projected edge `seg1` of face A
(edge `i1`, wrapping endpoint `j1`) against the `i2`-th projected edge of
face B; a contact is emitted only when both closest points lie strictly in
the interior of their edges, reconstructed on the original unprojected
edges by the same interpolation parameters. -/
def clip3d_edges_inner (cache2 : List V2) (m1 m2 : ConvexPolyface V3)
    (normal : V3) (i1 j1 : ℕ) (seg1 : Seg V2) (acc2 : List Tri3) (i2 : ℕ) :
    Except String (List Tri3) := do
  let j2 := (i2 + 1) % cache2.length
  let p2a ← exceptOfOption idxMsg (cache2.get? i2)
  let p2b ← exceptOfOption idxMsg (cache2.get? j2)
  let seg2 := Seg.mk p2a p2b
  match segment_against_segment_with_locations seg1 seg2 with
  | (.OnEdge u1 v1, .OnEdge u2 v2) => do
    let o1a ← exceptOfOption idxMsg (m1.vertices.get? i1)
    let o1b ← exceptOfOption idxMsg (m1.vertices.get? j1)
    let o2a ← exceptOfOption idxMsg (m2.vertices.get? i2)
    let o2b ← exceptOfOption idxMsg (m2.vertices.get? j2)
    let world1 := (Seg.mk o1a o1b).point_at (.OnEdge u1 v1)
    let world2 := (Seg.mk o2a o2b).point_at (.OnEdge u2 v2)
    let f1 ← exceptOfOption idxMsg (m1.edges_id.get? i1)
    let f2 ← exceptOfOption idxMsg (m2.edges_id.get? i2)
    pure (acc2 ++ [(Contact.new_wo_depth3 world1 world2 normal, f1, f2)])
  | _ => pure acc2

/-- Body of the outer (face-A) edge loop of the 3D clipping branch (lines
306–331 of the source): fetches the `i1`-th projected edge of face A (with
wrapping endpoint index) and runs the inner loop over face B's edges. -/
def clip3d_edges_outer (cache1 cache2 : List V2) (m1 m2 : ConvexPolyface V3)
    (normal : V3) (acc : List Tri3) (i1 : ℕ) : Except String (List Tri3) := do
  let j1 := (i1 + 1) % cache1.length
  let p1a ← exceptOfOption idxMsg (cache1.get? i1)
  let p1b ← exceptOfOption idxMsg (cache1.get? j1)
  let seg1 := Seg.mk p1a p1b
  (List.range m2.nedges).foldlM
    (clip3d_edges_inner cache2 m1 m2 normal i1 j1 seg1) acc

/-- Edge-against-edge loop of the 3D clipping branch (lines 304–331 of the
source): every projected edge of face A is tested against every projected
edge of face B. Edge traversal wraps modulo each projected polygon's
vertex count. -/
def clip3d_edges (cache1 cache2 : List V2) (m1 m2 : ConvexPolyface V3)
    (normal : V3) : Except String (List Tri3) :=
  (List.range m1.nedges).foldlM
    (clip3d_edges_outer cache1 cache2 m1 m2 normal) []

/-- The 3D branch of `clip_polyfaces` (lines 232–332 of the source): skip
when both faces have at most two vertices; otherwise project both faces
into the 2D basis `(b0, b1)` orthogonal to the normal (the basis is
produced by the external orthonormal-subspace routine and is taken as a
parameter) and collect the two point-in-polygon loops and the
edge-against-edge loop, in source order. -/
def clip_polyfaces_3d (b0 b1 : V3) (m1 m2 : ConvexPolyface V3) (normal : V3) :
    Except String (List Tri3) :=
  if m1.vertices.length ≤ 2 ∧ m2.vertices.length ≤ 2 then .ok []
  else do
    let ref_pt ← exceptOfOption idxMsg (m1.vertices.get? 0)
    let cache1 := projectVerts m1.vertices ref_pt b0 b1
    let cache2 := projectVerts m2.vertices ref_pt b0 b1
    let l1 ← clip3d_loop1 cache1 cache2 m1 m2 ref_pt b0 b1 normal
    let l2 ← clip3d_loop2 cache1 cache2 m1 m2 ref_pt b0 b1 normal
    let le ← clip3d_edges cache1 cache2 m1 m2 normal
    .ok (l1 ++ l2 ++ le)

/-- A 3D isometry (`math::Isometry`): a rotation matrix (rows stored as
vectors) and a translation. The inverse transforms use the transpose of
the rotation, as a rotation's inverse is its transpose. -/
structure Iso where
  r0 : V3
  r1 : V3
  r2 : V3
  tr : V3
deriving DecidableEq, Repr

/-- Applies the rotation part of an isometry to a vector. -/
def Iso.rot_vector (m : Iso) (v : V3) : V3 :=
  ⟨dot3 m.r0 v, dot3 m.r1 v, dot3 m.r2 v⟩

/-- `Isometry::inverse_transform_vector`: applies the transposed rotation. -/
def Iso.inverse_transform_vector (m : Iso) (v : V3) : V3 :=
  ⟨m.r0.x * v.x + m.r1.x * v.y + m.r2.x * v.z,
   m.r0.y * v.x + m.r1.y * v.y + m.r2.y * v.z,
   m.r0.z * v.x + m.r1.z * v.y + m.r2.z * v.z⟩

/-- `Isometry::inverse_transform_point`: untranslates, then applies the
transposed rotation. -/
def Iso.inverse_transform_point (m : Iso) (p : V3) : V3 :=
  m.inverse_transform_vector (p - m.tr)

/-- Normal-cone data attached to a contact record
(`SupportMap::normal_cone`); produced by the external shape collaborator
and stored without interpretation by this core. -/
abbrev NormalCone := List V3

/-- Contact kinematic descriptor (`geometry::query::ContactKinematic`). -/
inductive ContactKinematic where
  | PointPoint
  | PointPlane
  | PlanePoint
  | PointLine (dir : V3)
  | LinePoint (dir : V3)
  | LineLine (dir1 dir2 : V3)
deriving DecidableEq, Repr

/-- `contact_kinematic` (lines 110–150 of the source): classifies how a
contact identified by a pair of feature ids should be tracked. The
ambient-dimension test `na::dimension::<P::Vector>() == 2` is the `dim`
parameter. In the 3D line-kinematic cases, a missing edge
(`.expect("Invalid edge id.")`) or an unretrievable edge direction
(`direction().unwrap()`) panics, embedded as `Except.error`. -/
def contact_kinematic (dim : ℕ) (m1 : Iso) (manifold1 : ConvexPolyface V3)
    (f1 : FeatureId) (m2 : Iso) (manifold2 : ConvexPolyface V3)
    (f2 : FeatureId) : Except String ContactKinematic :=
  if dim = 2 then
    match f1, f2 with
    | .vertex _, .vertex _ => .ok .PointPoint
    | .vertex _, .edge _ => .ok .PointPlane
    | .edge _, .vertex _ => .ok .PlanePoint
    | _, _ => .ok .PointPoint
  else
    match f1, f2 with
    | .vertex _, .vertex _ => .ok .PointPoint
    | .vertex _, .face _ => .ok .PointPlane
    | .face _, .vertex _ => .ok .PlanePoint
    | .edge _, .vertex _ => do
      let e1 ← exceptOfOption invalidEdgeMsg (manifold1.edge_dir f1)
      let dir1 ← exceptOfOption missingDirMsg e1
      .ok (.LinePoint (m1.inverse_transform_vector dir1))
    | .vertex _, .edge _ => do
      let e2 ← exceptOfOption invalidEdgeMsg (manifold2.edge_dir f2)
      let dir2 ← exceptOfOption missingDirMsg e2
      .ok (.PointLine (m2.inverse_transform_vector dir2))
    | .edge _, .edge _ => do
      let e1 ← exceptOfOption invalidEdgeMsg (manifold1.edge_dir f1)
      let e2 ← exceptOfOption invalidEdgeMsg (manifold2.edge_dir f2)
      let dir1 ← exceptOfOption missingDirMsg e1
      let dir2 ← exceptOfOption missingDirMsg e2
      .ok (.LineLine (m1.inverse_transform_vector dir1)
        (m2.inverse_transform_vector dir2))
    | _, _ => .ok .PointPoint

/-- The shared id allocator (`utils::IdAllocator`). Modelled from the
spec: hands out small integers, reusing freed ones. -/
structure IdAllocator where
  next_id : ℕ
  free_list : List ℕ
deriving DecidableEq, Repr

/-- `IdAllocator::alloc`: pops a freed id if one is available, otherwise
hands out a fresh one. -/
def IdAllocator.alloc (a : IdAllocator) : ℕ × IdAllocator :=
  match a.free_list with
  | i :: rest => (i, ⟨a.next_id, rest⟩)
  | [] => (a.next_id, ⟨a.next_id + 1, []⟩)

/-- `IdAllocator::free`: returns an id to the allocator. -/
def IdAllocator.release (a : IdAllocator) (i : ℕ) : IdAllocator :=
  ⟨a.next_id, i :: a.free_list⟩

/-- One record of the persistent contact manifold. Modelled from the spec
(§4.3): the contact, the local-space points, the normal-cone data, the
feature-id pair, the kinematic, and the stable cache-slot id. -/
structure ManifoldRecord where
  contact : Contact V3
  local1 : V3
  local2 : V3
  ncone1 : NormalCone
  ncone2 : NormalCone
  f1 : FeatureId
  f2 : FeatureId
  kinematic : ContactKinematic
  slot : ℕ
deriving DecidableEq, Repr

/-- The persistent contact manifold
(`geometry::query::ContactManifold`). Modelled from the spec (§4.3): the
live records of the current frame and the snapshot of the previous frame's
records kept for feature-id matching. -/
structure ContactManifold where
  records : List ManifoldRecord
  cache : List ManifoldRecord
deriving DecidableEq, Repr

/-- `ContactManifold::new`: empty manifold. -/
def ContactManifold.empty : ContactManifold := ⟨[], []⟩

/-- `ContactManifold::len`: number of live contact records. -/
def ContactManifold.len (m : ContactManifold) : ℕ := m.records.length

/-- `ContactManifold::save_cache_and_clear`. Modelled from the spec
(§4.3): snapshots the live records for feature-id matching, clears them,
and releases their cache-slot ids back to the shared allocator. -/
def ContactManifold.save_cache_and_clear (m : ContactManifold)
    (ids : IdAllocator) : ContactManifold × IdAllocator :=
  (⟨[], m.records⟩, m.records.foldl (fun a r => a.release r.slot) ids)

/-- `ContactManifold::push`. Modelled from the spec (§4.3): inserts or
replaces the record for the feature-id pair. A live record for the same
pair is replaced in place (its slot kept); a prior-frame record for the
pair donates its slot and a replacement is reported; otherwise a fresh
slot is drawn from the allocator. -/
def ContactManifold.push (m : ContactManifold) (c : Contact V3)
    (l1 l2 : V3) (n1 n2 : NormalCone) (f1 f2 : FeatureId)
    (kin : ContactKinematic) (ids : IdAllocator) :
    ContactManifold × IdAllocator × Bool :=
  let pairEq : ManifoldRecord → Bool := fun r => r.f1 == f1 && r.f2 == f2
  let mk : ℕ → ManifoldRecord := fun s => ⟨c, l1, l2, n1, n2, f1, f2, kin, s⟩
  match m.records.find? pairEq with
  | some old =>
    (⟨m.records.map (fun r => if pairEq r then mk old.slot else r), m.cache⟩,
     ids, true)
  | none =>
    match m.cache.find? pairEq with
    | some old => (⟨m.records ++ [mk old.slot], m.cache⟩, ids, true)
    | none =>
      let (s, ids') := ids.alloc
      (⟨m.records ++ [mk s], m.cache⟩, ids', false)

/-- GJK query outcome (`geometry::query::algorithms::gjk::GJKResult`), as
consumed by `update`: a projection carrying a witness contact and a
direction, a no-intersection witness direction, or an inconclusive
outcome (the catch-all `_` arm of the source). -/
inductive GJKResult where
  | Projection (contact : Contact V3) (dir : V3)
  | NoIntersection (dir : V3)
  | Indeterminate
deriving DecidableEq, Repr

/-- Contact prediction margins (`geometry::query::ContactPrediction`). -/
structure ContactPrediction where
  linear : ℚ
  angular1 : ℚ
  angular2 : ℚ
deriving DecidableEq, Repr

/-- The support-mapping capability of a shape (`geometry::shape::SupportMap`),
an external collaborator: support face, angularly-constrained support
feature, and normal cones. -/
structure SupportMapImpl where
  support_face_toward : Iso → V3 → ConvexPolyface V3
  support_feature_toward : Iso → V3 → ℚ → ConvexPolyface V3
  normal_cone : V3 → FeatureId → NormalCone

/-- A shape as seen by this generator: the optional support-mapping
capability (`Shape::as_support_map`). -/
structure ShapeModel where
  as_support_map : Option SupportMapImpl

/-- The mutable state of `SupportMapSupportMapManifoldGenerator` (fields
of the struct, lines 46–56 of the source), over a simplex type `S`. The
2D-projection scratch cache is omitted: it is cleared and refilled by each
3D clip and never observed across calls. -/
structure GenState (S : Type) where
  simplex : S
  last_gjk_dir : Option V3
  last_optimal_dir : Option V3
  contact_manifold : ContactManifold
  new_contacts : List Tri3
  manifold1 : ConvexPolyface V3
  manifold2 : ConvexPolyface V3

/-- `save_new_contacts_as_contact_manifold` (lines 82–108 of the source):
saves and clears the manifold cache, then drains the raw contacts,
classifying each kinematically (a classification panic aborts the call),
localising its points, fetching the normal cones from the shapes, and
pushing it into the manifold. The thread-local diagnostic counter is
omitted (the spec marks it as non-correctness-relevant). This embedding is
instantiated at ambient dimension 3. -/
def save_new_contacts_as_contact_manifold {S : Type} (m1 : Iso)
    (g1 : SupportMapImpl) (m2 : Iso) (g2 : SupportMapImpl)
    (ids : IdAllocator) (st : GenState S) :
    Except String (GenState S × IdAllocator) := do
  let start := st.contact_manifold.save_cache_and_clear ids
  let res ← st.new_contacts.foldlM
    (fun (acc : ContactManifold × IdAllocator) t => do
      let (c, f1, f2) := t
      let kin ← contact_kinematic 3 m1 st.manifold1 f1 m2 st.manifold2 f2
      let local1 := m1.inverse_transform_point c.world1
      let local2 := m2.inverse_transform_point c.world2
      let n1 := g1.normal_cone local1 f1
      let n2 := g2.normal_cone local2 f2
      let p := acc.1.push c local1 local2 n1 n2 f1 f2 kin acc.2
      pure (p.1, p.2.1))
    start
  pure ({ st with contact_manifold := res.1, new_contacts := [] }, res.2)

/-- The query-and-clip phase of `update` (lines 365–414 of the source):
runs the external GJK query with the warm-start direction, clears the
scratch state, and on a projection extracts support faces (deep contact)
or angularly-constrained support features (shallow contact), clips them,
and falls back to the single witness contact when clipping produced
nothing; on a no-intersection outcome only the warm-start direction is
updated; an inconclusive outcome changes nothing further. `query` is the
external closest-points query and `basisOf` the external
orthonormal-subspace-basis routine. -/
def compute_new_contacts {S : Type} (basisOf : V3 → V3 × V3)
    (query : ℚ → S → Option V3 → GJKResult × S) (ma : Iso)
    (sma : SupportMapImpl) (mb : Iso) (smb : SupportMapImpl)
    (prediction : ContactPrediction) (st : GenState S) :
    Except String (GenState S) :=
  let q := query prediction.linear st.simplex st.last_gjk_dir
  let st1 : GenState S :=
    { st with
      simplex := q.2
      new_contacts := []
      manifold1 := ConvexPolyface.empty V3
      manifold2 := ConvexPolyface.empty V3 }
  match q.1 with
  | .Projection c dir => do
    let st2 := { st1 with last_gjk_dir := some dir }
    let mf1 :=
      if 0 < c.depth then sma.support_face_toward ma c.normal
      else sma.support_feature_toward ma c.normal prediction.angular1
    let mf2 :=
      if 0 < c.depth then smb.support_face_toward mb (-c.normal)
      else smb.support_feature_toward mb (-c.normal) prediction.angular2
    let basis := basisOf c.normal
    let cs ← clip_polyfaces_3d basis.1 basis.2 mf1 mf2 c.normal
    let cs' := if cs.isEmpty then [(c, mf1.feature_id, mf2.feature_id)] else cs
    pure { st2 with manifold1 := mf1, manifold2 := mf2, new_contacts := cs' }
  | .NoIntersection dir => pure { st1 with last_gjk_dir := some dir }
  | .Indeterminate => pure st1

/-- `update` (lines 347–422 of the source): inapplicable pairs (a missing
support-mapping capability) are reported by `false` with nothing touched;
otherwise the query-and-clip phase runs and its raw contacts are committed
into the persistent manifold, and the pair is reported handled by `true`.
This embedding is instantiated at ambient dimension 3. -/
def update {S : Type} (basisOf : V3 → V3 × V3)
    (query : ℚ → S → Option V3 → GJKResult × S) (ma : Iso) (a : ShapeModel)
    (mb : Iso) (b : ShapeModel) (prediction : ContactPrediction)
    (ids : IdAllocator) (st : GenState S) :
    Except String (GenState S × IdAllocator × Bool) :=
  match a.as_support_map, b.as_support_map with
  | some sma, some smb => do
    let st3 ← compute_new_contacts basisOf query ma sma mb smb prediction st
    let r ← save_new_contacts_as_contact_manifold ma sma mb smb ids st3
    pure (r.1, r.2, true)
  | _, _ => pure (st, ids, false)

/-- `num_contacts` (lines 425–427 of the source). -/
def num_contacts {S : Type} (st : GenState S) : ℕ := st.contact_manifold.len

/-! ### Helper lemmas -/

theorem get?_some_of_lt {α : Type} {l : List α} {n : ℕ} (h : n < l.length) :
    ∃ a, l.get? n = some a := ⟨_, List.get?_eq_get h⟩

theorem sortRange_fst (ra rb : ℚ) (fa fb : FeatureId) (s : Seg V2) :
    (sortRange ra rb fa fb s).1 = (min ra rb, max ra rb) := by
  unfold sortRange
  split
  · next h => simp [min_eq_right (le_of_lt h), max_eq_left (le_of_lt h)]
  · next h =>
    have h' : ra ≤ rb := le_of_not_lt h
    simp [min_eq_left h', max_eq_right h']

theorem exc_bind_ok {ε α β : Type} (a : α) (f : α → Except ε β) :
    (Except.ok a >>= f) = f a := rfl

theorem exc_bind_err {ε α β : Type} (e : ε) (f : α → Except ε β) :
    ((Except.error e : Except ε α) >>= f) = .error e := rfl

/-! ### Concrete fixtures used by witnesses and counterexamples -/

/-- A trivial support-map implementation (external collaborator stub used
only to instantiate theorems on concrete inputs). -/
def fx_sm : SupportMapImpl :=
  ⟨fun _ _ => ConvexPolyface.empty V3, fun _ _ _ => ConvexPolyface.empty V3,
   fun _ _ => []⟩

/-- A shape exposing the support-mapping capability. -/
def fx_shape_sm : ShapeModel := ⟨some fx_sm⟩

/-- A shape without the support-mapping capability. -/
def fx_shape_none : ShapeModel := ⟨none⟩

/-- The identity isometry. -/
def fx_iso : Iso := ⟨⟨1, 0, 0⟩, ⟨0, 1, 0⟩, ⟨0, 0, 1⟩, ⟨0, 0, 0⟩⟩

/-- A fixed orthonormal-basis oracle. -/
def fx_basis : V3 → V3 × V3 := fun _ => (⟨1, 0, 0⟩, ⟨0, 1, 0⟩)

/-- Zero prediction margins. -/
def fx_pred : ContactPrediction := ⟨0, 0, 0⟩

/-- A fresh id allocator. -/
def fx_ids : IdAllocator := ⟨0, []⟩

/-- A GJK oracle that always reports the inconclusive outcome. -/
def fx_query_indet : ℚ → Unit → Option V3 → GJKResult × Unit :=
  fun _ _ _ => (.Indeterminate, ())

/-- A GJK oracle that always reports a separating direction. -/
def fx_query_noix : ℚ → Unit → Option V3 → GJKResult × Unit :=
  fun _ _ _ => (.NoIntersection ⟨0, 0, 1⟩, ())

/-- The empty generator state over the trivial simplex. -/
def fx_st0 : GenState Unit :=
  ⟨(), none, none, ContactManifold.empty, [], ConvexPolyface.empty V3,
   ConvexPolyface.empty V3⟩

/-- A concrete manifold record (slot 0, feature pair (vertex 0, vertex 0)). -/
def fx_rec : ManifoldRecord :=
  ⟨⟨⟨0, 0, 0⟩, ⟨0, 0, 0⟩, ⟨0, 0, 1⟩, 0⟩, ⟨0, 0, 0⟩, ⟨0, 0, 0⟩, [], [],
   .vertex 0, .vertex 0, .PointPoint, 0⟩

/-- A generator state whose persistent manifold holds one live record. -/
def fx_st1 : GenState Unit :=
  ⟨(), none, none, ⟨[fx_rec], []⟩, [], ConvexPolyface.empty V3,
   ConvexPolyface.empty V3⟩

/-! ### The claims -/

/-- The segment `A = [(0,0),(2,0)]` as a 2D polyface. -/
def c7_m1 : ConvexPolyface V2 :=
  ⟨[⟨0, 0⟩, ⟨2, 0⟩], [.vertex 0, .vertex 1], [], none, .edge 0, []⟩

/-- The segment `B = [(1,0),(3,0)]` as a 2D polyface. -/
def c7_m2 : ConvexPolyface V2 :=
  ⟨[⟨1, 0⟩, ⟨3, 0⟩], [.vertex 0, .vertex 1], [], none, .edge 0, []⟩

/-- C7: in the 2D clipping regime, segments `A = [(0,0),(2,0)]` and
`B = [(1,0),(3,0)]` with normal `(0,1)` produce exactly two contacts,
located at projected positions 2 and 1, and the contact at position 1 is
interpolated on segment A with barycentric weight 0.5 (its witness point
equals A's point at barycentric coordinates `(1/2, 1/2)`; A is traversed
in descending projected order here, so the segment appears
endpoint-swapped). -/
theorem spec_C7 :
    ∃ t1 t2, clip_polyfaces_2d c7_m1 c7_m2 ⟨0, 1⟩ = .ok [t1, t2]
      ∧ t1.1.world1 = ⟨2, 0⟩ ∧ t1.1.world2 = ⟨2, 0⟩
      ∧ t2.1.world1 = ⟨1, 0⟩ ∧ t2.1.world2 = ⟨1, 0⟩
      ∧ t2.1.world1
          = (Seg.mk (⟨2, 0⟩ : V2) ⟨0, 0⟩).point_at (.OnEdge (1 - 1/2) (1/2)) := by
  refine ⟨(Contact.new_wo_depth2 ⟨2, 0⟩ ⟨2, 0⟩ ⟨0, 1⟩, .vertex 1, .edge 0),
    (Contact.new_wo_depth2 ⟨1, 0⟩ ⟨1, 0⟩ ⟨0, 1⟩, .edge 0, .vertex 0), ?_⟩
  refine ⟨by decide, by decide, by decide, by decide, by decide, by decide⟩

/-- C2: `update` returns `false` and leaves every piece of the state (the
generator state and the id allocator) untouched when either shape lacks
the support-mapping capability; and whenever both shapes expose it, any
value `update` returns reports the pair as handled (`true`), regardless of
whether any contact points resulted. -/
theorem spec_C2 {S : Type} (basisOf : V3 → V3 × V3)
    (query : ℚ → S → Option V3 → GJKResult × S) (ma : Iso) (a : ShapeModel)
    (mb : Iso) (b : ShapeModel) (prediction : ContactPrediction)
    (ids : IdAllocator) (st : GenState S) :
    ((a.as_support_map = none ∨ b.as_support_map = none) →
      update basisOf query ma a mb b prediction ids st = .ok (st, ids, false)) ∧
    (∀ sma smb, a.as_support_map = some sma → b.as_support_map = some smb →
      ∀ st' ids' handled,
        update basisOf query ma a mb b prediction ids st
          = .ok (st', ids', handled) →
        handled = true) := by
  constructor
  · intro h
    cases ha : a.as_support_map <;> cases hb : b.as_support_map <;>
      simp_all [update, pure, Except.pure]
  · intro sma smb ha hb st' ids' handled h
    unfold update at h
    rw [ha, hb] at h
    dsimp only at h
    cases hc : compute_new_contacts basisOf query ma sma mb smb prediction st with
    | error e => rw [hc, exc_bind_err] at h; exact absurd h (by simp)
    | ok st3 =>
      rw [hc, exc_bind_ok] at h
      cases hs : save_new_contacts_as_contact_manifold ma sma mb smb ids st3 with
      | error e => rw [hs, exc_bind_err] at h; exact absurd h (by simp)
      | ok r =>
        rw [hs, exc_bind_ok] at h
        simp only [pure, Except.pure, Except.ok.injEq, Prod.mk.injEq] at h
        exact h.2.2.symm

/-- Witness for C2: a concrete pair with a capability-less first shape is
reported unhandled with nothing touched, and a concrete fully-capable pair
is reported handled. -/
theorem spec_C2_witness :
    update fx_basis fx_query_indet fx_iso fx_shape_none fx_iso fx_shape_sm
        fx_pred fx_ids fx_st0 = .ok (fx_st0, fx_ids, false)
    ∧ ∀ st' ids' handled,
        update fx_basis fx_query_indet fx_iso fx_shape_sm fx_iso fx_shape_sm
            fx_pred fx_ids fx_st0 = .ok (st', ids', handled) →
        handled = true := by
  constructor
  · exact (spec_C2 fx_basis fx_query_indet fx_iso fx_shape_none fx_iso
      fx_shape_sm fx_pred fx_ids fx_st0).1 (Or.inl rfl)
  · exact fun st' ids' handled h =>
      (spec_C2 fx_basis fx_query_indet fx_iso fx_shape_sm fx_iso fx_shape_sm
        fx_pred fx_ids fx_st0).2 fx_sm fx_sm rfl rfl st' ids' handled h

/-- C5: when the query reports a no-intersection outcome carrying a
separating direction, `update` succeeds, stores that direction as the
warm-start direction, and leaves the manifold empty (the contact count is
zero). -/
theorem spec_C5 {S : Type} (basisOf : V3 → V3 × V3)
    (query : ℚ → S → Option V3 → GJKResult × S) (ma : Iso) (a : ShapeModel)
    (mb : Iso) (b : ShapeModel) (prediction : ContactPrediction)
    (ids : IdAllocator) (st : GenState S) (sma smb : SupportMapImpl)
    (ha : a.as_support_map = some sma) (hb : b.as_support_map = some smb)
    (d : V3) (s' : S)
    (hq : query prediction.linear st.simplex st.last_gjk_dir
      = (.NoIntersection d, s')) :
    ∃ st' ids',
      update basisOf query ma a mb b prediction ids st = .ok (st', ids', true)
      ∧ st'.last_gjk_dir = some d ∧ num_contacts st' = 0 := by
  refine ⟨{ st with
      simplex := s'
      last_gjk_dir := some d
      manifold1 := ConvexPolyface.empty V3
      manifold2 := ConvexPolyface.empty V3
      new_contacts := []
      contact_manifold := ⟨[], st.contact_manifold.records⟩ },
    st.contact_manifold.records.foldl (fun acc r => acc.release r.slot) ids,
    ?_, rfl, rfl⟩
  unfold update
  rw [ha, hb]
  dsimp only
  unfold compute_new_contacts
  rw [hq]
  rfl

/-- Witness for C5: a concrete no-intersection update stores the separating
direction `(0,0,1)` and empties the manifold. -/
theorem spec_C5_witness :
    ∃ st' ids',
      update fx_basis fx_query_noix fx_iso fx_shape_sm fx_iso fx_shape_sm
          fx_pred fx_ids fx_st0 = .ok (st', ids', true)
      ∧ st'.last_gjk_dir = some ⟨0, 0, 1⟩ ∧ num_contacts st' = 0 :=
  spec_C5 fx_basis fx_query_noix fx_iso fx_shape_sm fx_iso fx_shape_sm fx_pred
    fx_ids fx_st0 fx_sm fx_sm rfl rfl ⟨0, 0, 1⟩ () rfl

/-- C1 (amended): when the query reports the inconclusive/degenerate
outcome, `update` leaves the warm-start direction untouched and produces
no new contacts, but it does NOT leave the persistent manifold unchanged:
the manifold is still recommitted, flushing every prior record into the
snapshot cache (their slot ids returned to the allocator) and leaving the
live manifold empty. -/
theorem spec_C1_amended {S : Type} (basisOf : V3 → V3 × V3)
    (query : ℚ → S → Option V3 → GJKResult × S) (ma : Iso) (a : ShapeModel)
    (mb : Iso) (b : ShapeModel) (prediction : ContactPrediction)
    (ids : IdAllocator) (st : GenState S) (sma smb : SupportMapImpl)
    (ha : a.as_support_map = some sma) (hb : b.as_support_map = some smb)
    (s' : S)
    (hq : query prediction.linear st.simplex st.last_gjk_dir
      = (.Indeterminate, s')) :
    update basisOf query ma a mb b prediction ids st
      = .ok ({ st with
          simplex := s'
          new_contacts := []
          manifold1 := ConvexPolyface.empty V3
          manifold2 := ConvexPolyface.empty V3
          contact_manifold := ⟨[], st.contact_manifold.records⟩ },
        st.contact_manifold.records.foldl (fun acc r => acc.release r.slot) ids,
        true) := by
  unfold update
  rw [ha, hb]
  dsimp only
  unfold compute_new_contacts
  rw [hq]
  rfl

/-- Counterexample for C1 as stated: a concrete `update` call in which the
query is inconclusive and the manifold holds one record beforehand; after
the call the record is gone (the live manifold is empty), so the manifold
was not left unchanged. -/
theorem spec_C1_counterexample :
    update fx_basis fx_query_indet fx_iso fx_shape_sm fx_iso fx_shape_sm
        fx_pred fx_ids fx_st1
      = .ok ({ fx_st1 with contact_manifold := ⟨[], [fx_rec]⟩ },
        ⟨0, [0]⟩, true)
    ∧ fx_st1.contact_manifold.records = [fx_rec] := by
  exact ⟨rfl, rfl⟩

/-- Witness for C1 (amended) at a concrete input. -/
theorem spec_C1_witness :
    update fx_basis fx_query_indet fx_iso fx_shape_sm fx_iso fx_shape_sm
        fx_pred fx_ids fx_st0
      = .ok ({ fx_st0 with
          simplex := ()
          new_contacts := []
          manifold1 := ConvexPolyface.empty V3
          manifold2 := ConvexPolyface.empty V3
          contact_manifold := ⟨[], fx_st0.contact_manifold.records⟩ },
        fx_st0.contact_manifold.records.foldl
          (fun acc r => acc.release r.slot) fx_ids,
        true) :=
  spec_C1_amended fx_basis fx_query_indet fx_iso fx_shape_sm fx_iso
    fx_shape_sm fx_pred fx_ids fx_st0 fx_sm fx_sm rfl rfl () rfl

/-- C6: in the 2D clipping regime, zero contacts are emitted when either
input polyface has at most one vertex, and zero contacts are emitted when
the two segments' ranges projected on the axis orthogonal to the normal
(relative to A's first vertex) are disjoint. -/
theorem spec_C6 (m1 m2 : ConvexPolyface V2) (n : V2) :
    ((m1.vertices.length ≤ 1 ∨ m2.vertices.length ≤ 1) →
      clip_polyfaces_2d m1 m2 n = .ok []) ∧
    (∀ a1 a2 b1 b2 : V2,
      m1.vertices.get? 0 = some a1 → m1.vertices.get? 1 = some a2 →
      m2.vertices.get? 0 = some b1 → m2.vertices.get? 1 = some b2 →
      2 ≤ m1.vertices_id.length → 2 ≤ m2.vertices_id.length →
      (max (dot2 (b1 - a1) ⟨-n.y, n.x⟩) (dot2 (b2 - a1) ⟨-n.y, n.x⟩)
          < min (dot2 (a1 - a1) ⟨-n.y, n.x⟩) (dot2 (a2 - a1) ⟨-n.y, n.x⟩)
        ∨ max (dot2 (a1 - a1) ⟨-n.y, n.x⟩) (dot2 (a2 - a1) ⟨-n.y, n.x⟩)
          < min (dot2 (b1 - a1) ⟨-n.y, n.x⟩) (dot2 (b2 - a1) ⟨-n.y, n.x⟩)) →
      clip_polyfaces_2d m1 m2 n = .ok []) := by
  constructor
  · intro h
    unfold clip_polyfaces_2d
    rw [if_pos h]
  · intro a1 a2 b1 b2 ha1 ha2 hb1 hb2 hia hib hdisj
    have h1 : 1 < m1.vertices.length := by
      rcases List.get?_eq_some.mp ha2 with ⟨h, -⟩
      exact h
    have h2 : 1 < m2.vertices.length := by
      rcases List.get?_eq_some.mp hb2 with ⟨h, -⟩
      exact h
    obtain ⟨fa1, hfa1⟩ := get?_some_of_lt (l := m1.vertices_id) (n := 0)
      (by omega)
    obtain ⟨fa2, hfa2⟩ := get?_some_of_lt (l := m1.vertices_id) (n := 1)
      (by omega)
    obtain ⟨fb1, hfb1⟩ := get?_some_of_lt (l := m2.vertices_id) (n := 0)
      (by omega)
    obtain ⟨fb2, hfb2⟩ := get?_some_of_lt (l := m2.vertices_id) (n := 1)
      (by omega)
    unfold clip_polyfaces_2d
    rw [if_neg (by omega)]
    rw [ha1, ha2, hb1, hb2, hfa1, hfa2, hfb1, hfb2]
    simp only [exceptOfOption, exc_bind_ok]
    rw [if_pos]
    rw [sortRange_fst, sortRange_fst]
    rcases hdisj with h | h
    · right
      exact h
    · left
      exact h

/-- Witness for C6: two concrete horizontally separated segments produce
zero contacts. -/
theorem spec_C6_witness :
    clip_polyfaces_2d
        ⟨[⟨0, 0⟩, ⟨1, 0⟩], [.vertex 0, .vertex 1], [], none, .edge 0, []⟩
        ⟨[⟨5, 0⟩, ⟨6, 0⟩], [.vertex 0, .vertex 1], [], none, .edge 0, []⟩
        ⟨0, 1⟩
      = .ok [] :=
  (spec_C6
    ⟨[⟨0, 0⟩, ⟨1, 0⟩], [.vertex 0, .vertex 1], [], none, .edge 0, []⟩
    ⟨[⟨5, 0⟩, ⟨6, 0⟩], [.vertex 0, .vertex 1], [], none, .edge 0, []⟩
    ⟨0, 1⟩).2 ⟨0, 0⟩ ⟨1, 0⟩ ⟨5, 0⟩ ⟨6, 0⟩ rfl rfl rfl rfl (by decide)
    (by decide) (by decide)

theorem foldlM_cons_exc {α β : Type} (f : β → α → Except String β) (x : α)
    (xs : List α) (init : β) :
    List.foldlM f init (x :: xs) = f init x >>= fun b => xs.foldlM f b := rfl

theorem foldlM_nil_exc {α β : Type} (f : β → α → Except String β) (init : β) :
    List.foldlM f init [] = .ok init := rfl

theorem foldlM_ok_of_step {α β : Type} (f : β → α → Except String β)
    (l : List α) :
    ∀ init : β, (∀ b, ∀ a ∈ l, ∃ b', f b a = .ok b') →
      ∃ r, l.foldlM f init = .ok r := by
  induction l with
  | nil => exact fun init _ => ⟨init, rfl⟩
  | cons x xs ih =>
    intro init h
    obtain ⟨b', hb'⟩ := h init x (List.mem_cons_self x xs)
    obtain ⟨r, hr⟩ := ih b' fun b a ha => h b a (List.mem_cons_of_mem _ ha)
    exact ⟨r, by rw [foldlM_cons_exc, hb', exc_bind_ok, hr]⟩

theorem foldlM_append_eq {α : Type} (f : List α → ℕ → Except String (List α))
    (g : ℕ → List α) (l : List ℕ)
    (h : ∀ acc i, i ∈ l → f acc i = .ok (acc ++ g i)) :
    ∀ acc : List α, l.foldlM f acc = .ok (acc ++ l.flatMap g) := by
  induction l with
  | nil => intro acc; rw [foldlM_nil_exc]; simp
  | cons x xs ih =>
    intro acc
    rw [foldlM_cons_exc, h acc x (List.mem_cons_self x xs), exc_bind_ok,
      ih (fun a i hi => h a i (List.mem_cons_of_mem _ hi)) (acc ++ g x)]
    simp [List.append_assoc]

theorem foldlM_mem_inv {α β : Type} (f : List α → β → Except String (List α))
    (l : List β) (Q : α → Prop)
    (hstep : ∀ acc i res, i ∈ l → f acc i = .ok res →
      ∀ t ∈ res, t ∈ acc ∨ Q t) :
    ∀ (acc res : List α), l.foldlM f acc = .ok res →
      ∀ t ∈ res, t ∈ acc ∨ Q t := by
  induction l with
  | nil =>
    intro acc res hrun t ht
    rw [foldlM_nil_exc] at hrun
    cases hrun
    exact Or.inl ht
  | cons x xs ih =>
    intro acc res hrun t ht
    rw [foldlM_cons_exc] at hrun
    cases hfx : f acc x with
    | error e => rw [hfx, exc_bind_err] at hrun; cases hrun
    | ok b =>
      rw [hfx, exc_bind_ok] at hrun
      rcases ih (fun a i r hi => hstep a i r (List.mem_cons_of_mem _ hi))
          b res hrun t ht with hb | hq
      · exact hstep acc x b (List.mem_cons_self x xs) hfx t hb
      · exact Or.inr hq

theorem foldlM_ne_err {α β : Type} (f : β → α → Except String β) (l : List α)
    (msg : String)
    (hstep : ∀ b, ∀ a ∈ l, f b a ≠ .error msg) :
    ∀ init : β, l.foldlM f init ≠ .error msg := by
  induction l with
  | nil => intro init h; rw [foldlM_nil_exc] at h; cases h
  | cons x xs ih =>
    intro init h
    rw [foldlM_cons_exc] at h
    cases hfx : f init x with
    | error e =>
      rw [hfx, exc_bind_err] at h
      exact hstep init x (List.mem_cons_self x xs) (hfx.trans (by injection h; subst e; rfl))
    | ok b =>
      rw [hfx, exc_bind_ok] at h
      exact ih (fun b' a ha => hstep b' a (List.mem_cons_of_mem _ ha)) b h

theorem nedges_le_length {P : Type} (pf : ConvexPolyface P) :
    pf.nedges ≤ pf.vertices.length := by
  unfold ConvexPolyface.nedges
  split
  · exact le_rfl
  · split <;> omega

theorem two_le_length_of_nedges_pos {P : Type} (pf : ConvexPolyface P)
    (h : 0 < pf.nedges) : 2 ≤ pf.vertices.length := by
  unfold ConvexPolyface.nedges at h
  split at h
  · omega
  · split at h <;> omega

/-- The raw contact emitted by the first point-in-polygon loop for the
`i`-th vertex of face A (characterisation of `clip3d_loop1`, used only in
proofs; related to the loop by `clip3d_loop1_eq`). -/
def loop1_entry (cache1 : List V2) (m1 m2 : ConvexPolyface V3)
    (ref_pt b0 b1 normal n2 p2 : V3) (i : ℕ) : Tri3 :=
  let pt := cache1.getD i 0
  let origin := ref_pt + pt.x • b0 + pt.y • b1
  let toi2 := plane_toi_with_line p2 n2 origin normal
  (Contact.new_wo_depth3 (m1.vertices.getD i ⟨0, 0, 0⟩)
      (origin + toi2 • normal) normal,
   m1.vertices_id.getD i .unknown, m2.feature_id)

theorem clip3d_loop1_eq (cache1 cache2 : List V2) (m1 m2 : ConvexPolyface V3)
    (ref_pt b0 b1 normal n2 p2 : V3)
    (hlen1 : cache1.length = m1.vertices.length)
    (hlen2 : cache1.length = m1.vertices_id.length)
    (hn2 : m2.normal = some n2)
    (hp2 : m2.vertices.get? 0 = some p2)
    (hg : 2 < cache2.length) :
    clip3d_loop1 cache1 cache2 m1 m2 ref_pt b0 b1 normal
      = .ok ((List.range cache1.length).flatMap fun i =>
          if point_in_poly2d (cache1.getD i 0) cache2
          then [loop1_entry cache1 m1 m2 ref_pt b0 b1 normal n2 p2 i]
          else []) := by
  unfold clip3d_loop1
  rw [if_pos hg]
  refine (foldlM_append_eq _ _ _ ?_ []).trans (by rw [List.nil_append])
  intro acc i hi
  have hi1 : i < cache1.length := List.mem_range.mp hi
  have hi2 : i < m1.vertices.length := hlen1 ▸ hi1
  have hi3 : i < m1.vertices_id.length := hlen2 ▸ hi1
  rw [List.get?_eq_get hi1]
  simp only [exceptOfOption, exc_bind_ok]
  cases hpt : point_in_poly2d cache1[i] cache2 with
  | false => simp [hpt, loop1_entry, pure, Except.pure, List.getD_eq_getElem, hi1]
  | true =>
    rw [if_pos rfl]
    rw [hn2, hp2, List.get?_eq_get hi2, List.get?_eq_get hi3]
    simp only [exceptOfOption, exc_bind_ok]
    simp [loop1_entry, pure, Except.pure, List.getD_eq_getElem, hi1, hi2, hi3,
      hpt]

/-- The raw contact emitted by the second point-in-polygon loop for the
`i`-th vertex of face B (characterisation of `clip3d_loop2`, used only in
proofs; related to the loop by `clip3d_loop2_eq`). -/
def loop2_entry (cache2 : List V2) (m1 m2 : ConvexPolyface V3)
    (ref_pt b0 b1 normal n1 p1 : V3) (i : ℕ) : Tri3 :=
  let pt := cache2.getD i 0
  let origin := ref_pt + pt.x • b0 + pt.y • b1
  let toi1 := plane_toi_with_line p1 n1 origin normal
  (Contact.new_wo_depth3 (origin + toi1 • normal)
      (m2.vertices.getD i ⟨0, 0, 0⟩) normal,
   m1.feature_id, m2.vertices_id.getD i .unknown)

theorem clip3d_loop2_eq (cache1 cache2 : List V2) (m1 m2 : ConvexPolyface V3)
    (ref_pt b0 b1 normal n1 p1 : V3)
    (hlen1 : cache2.length = m2.vertices.length)
    (hlen2 : cache2.length = m2.vertices_id.length)
    (hn1 : m1.normal = some n1)
    (hp1 : m1.vertices.get? 0 = some p1)
    (hg : 2 < cache1.length) :
    clip3d_loop2 cache1 cache2 m1 m2 ref_pt b0 b1 normal
      = .ok ((List.range cache2.length).flatMap fun i =>
          if point_in_poly2d (cache2.getD i 0) cache1
          then [loop2_entry cache2 m1 m2 ref_pt b0 b1 normal n1 p1 i]
          else []) := by
  unfold clip3d_loop2
  rw [if_pos hg]
  refine (foldlM_append_eq _ _ _ ?_ []).trans (by rw [List.nil_append])
  intro acc i hi
  have hi1 : i < cache2.length := List.mem_range.mp hi
  have hi2 : i < m2.vertices.length := hlen1 ▸ hi1
  have hi3 : i < m2.vertices_id.length := hlen2 ▸ hi1
  rw [List.get?_eq_get hi1]
  simp only [exceptOfOption, exc_bind_ok]
  cases hpt : point_in_poly2d cache2[i] cache1 with
  | false =>
    simp [hpt, loop2_entry, pure, Except.pure, List.getD_eq_getElem, hi1]
  | true =>
    rw [if_pos rfl]
    rw [hn1, hp1, List.get?_eq_get hi2, List.get?_eq_get hi3]
    simp only [exceptOfOption, exc_bind_ok]
    simp [loop2_entry, pure, Except.pure, List.getD_eq_getElem, hi1, hi2, hi3,
      hpt]

theorem clip3d_edges_inner_spec (cache2 : List V2) (m1 m2 : ConvexPolyface V3)
    (normal : V3) (i1 j1 : ℕ) (seg1 : Seg V2)
    (hc2 : cache2.length = m2.vertices.length)
    (hi1v : i1 < m1.vertices.length) (hj1v : j1 < m1.vertices.length)
    (hi1e : i1 < m1.edges_id.length)
    (he2 : m2.nedges ≤ m2.edges_id.length) :
    ∀ acc2, ∀ i2 ∈ List.range m2.nedges,
      ∃ r, clip3d_edges_inner cache2 m1 m2 normal i1 j1 seg1 acc2 i2 = .ok r
        ∧ ∀ t ∈ r, t ∈ acc2 ∨ t.2.1 ∈ m1.edges_id := by
  intro acc2 i2 hi2
  have hi2n : i2 < m2.nedges := List.mem_range.mp hi2
  have hi2c : i2 < cache2.length := by
    rw [hc2]; exact lt_of_lt_of_le hi2n (nedges_le_length m2)
  have hcpos : 0 < cache2.length := Nat.lt_of_le_of_lt (Nat.zero_le _) hi2c
  have hj2c : (i2 + 1) % cache2.length < cache2.length := Nat.mod_lt _ hcpos
  have hi2v : i2 < m2.vertices.length := hc2 ▸ hi2c
  have hj2v : (i2 + 1) % cache2.length < m2.vertices.length := hc2 ▸ hj2c
  have hi2e : i2 < m2.edges_id.length := lt_of_lt_of_le hi2n he2
  unfold clip3d_edges_inner
  dsimp only
  rw [List.get?_eq_get hi2c, List.get?_eq_get hj2c]
  simp only [exceptOfOption, exc_bind_ok]
  rcases hloc : segment_against_segment_with_locations seg1
      (Seg.mk (cache2.get ⟨i2, hi2c⟩) (cache2.get ⟨(i2 + 1) % cache2.length, hj2c⟩))
    with ⟨l1, l2⟩
  cases l1 with
  | OnVertex k => exact ⟨acc2, rfl, fun t ht => Or.inl ht⟩
  | OnEdge u1 v1 =>
    cases l2 with
    | OnVertex k => exact ⟨acc2, rfl, fun t ht => Or.inl ht⟩
    | OnEdge u2 v2 =>
      rw [List.get?_eq_get hi1v, List.get?_eq_get hj1v,
        List.get?_eq_get hi2v, List.get?_eq_get hj2v,
        List.get?_eq_get hi1e, List.get?_eq_get hi2e]
      simp only [exceptOfOption, exc_bind_ok]
      refine ⟨_, rfl, ?_⟩
      intro t ht
      rcases List.mem_append.mp ht with h | h
      · exact Or.inl h
      · rcases List.mem_singleton.mp h with rfl
        exact Or.inr (List.get_mem m1.edges_id i1 hi1e)

theorem clip3d_edges_outer_spec (cache1 cache2 : List V2)
    (m1 m2 : ConvexPolyface V3) (normal : V3)
    (hc1 : cache1.length = m1.vertices.length)
    (hc2 : cache2.length = m2.vertices.length)
    (he1 : m1.nedges ≤ m1.edges_id.length)
    (he2 : m2.nedges ≤ m2.edges_id.length) :
    ∀ acc, ∀ i1 ∈ List.range m1.nedges,
      ∃ r, clip3d_edges_outer cache1 cache2 m1 m2 normal acc i1 = .ok r
        ∧ ∀ t ∈ r, t ∈ acc ∨ t.2.1 ∈ m1.edges_id := by
  intro acc i1 hi1
  have hi1n : i1 < m1.nedges := List.mem_range.mp hi1
  have hi1c : i1 < cache1.length := by
    rw [hc1]; exact lt_of_lt_of_le hi1n (nedges_le_length m1)
  have hcpos : 0 < cache1.length := Nat.lt_of_le_of_lt (Nat.zero_le _) hi1c
  have hj1c : (i1 + 1) % cache1.length < cache1.length := Nat.mod_lt _ hcpos
  have hi1v : i1 < m1.vertices.length := hc1 ▸ hi1c
  have hj1v : (i1 + 1) % cache1.length < m1.vertices.length := hc1 ▸ hj1c
  have hi1e : i1 < m1.edges_id.length := lt_of_lt_of_le hi1n he1
  have hinner := clip3d_edges_inner_spec cache2 m1 m2 normal i1
    ((i1 + 1) % cache1.length)
    (Seg.mk (cache1.get ⟨i1, hi1c⟩) (cache1.get ⟨(i1 + 1) % cache1.length, hj1c⟩))
    hc2 hi1v hj1v hi1e he2
  obtain ⟨r, hr⟩ := foldlM_ok_of_step
    (clip3d_edges_inner cache2 m1 m2 normal i1 ((i1 + 1) % cache1.length)
      (Seg.mk (cache1.get ⟨i1, hi1c⟩)
        (cache1.get ⟨(i1 + 1) % cache1.length, hj1c⟩)))
    (List.range m2.nedges) acc
    (fun b a ha => ((hinner b a ha).imp fun r h => h.1))
  refine ⟨r, ?_, ?_⟩
  · unfold clip3d_edges_outer
    dsimp only
    rw [List.get?_eq_get hi1c, List.get?_eq_get hj1c]
    simp only [exceptOfOption, exc_bind_ok]
    exact hr
  · exact foldlM_mem_inv _ _ (fun t => t.2.1 ∈ m1.edges_id)
      (fun acc' i res hi hrun t ht => by
        obtain ⟨r', hr', hinv⟩ := hinner acc' i hi
        rw [hr'] at hrun
        cases hrun
        exact hinv t ht)
      acc r hr

theorem clip3d_edges_spec (cache1 cache2 : List V2) (m1 m2 : ConvexPolyface V3)
    (normal : V3)
    (hc1 : cache1.length = m1.vertices.length)
    (hc2 : cache2.length = m2.vertices.length)
    (he1 : m1.nedges ≤ m1.edges_id.length)
    (he2 : m2.nedges ≤ m2.edges_id.length) :
    ∃ l, clip3d_edges cache1 cache2 m1 m2 normal = .ok l
      ∧ ∀ t ∈ l, t.2.1 ∈ m1.edges_id := by
  have houter := clip3d_edges_outer_spec cache1 cache2 m1 m2 normal hc1 hc2
    he1 he2
  obtain ⟨l, hl⟩ := foldlM_ok_of_step
    (clip3d_edges_outer cache1 cache2 m1 m2 normal) (List.range m1.nedges) []
    (fun b a ha => ((houter b a ha).imp fun r h => h.1))
  refine ⟨l, hl, ?_⟩
  intro t ht
  rcases foldlM_mem_inv _ _ (fun t => t.2.1 ∈ m1.edges_id)
      (fun acc' i res hi hrun t' ht' => by
        obtain ⟨r', hr', hinv⟩ := houter acc' i hi
        rw [hr'] at hrun
        cases hrun
        exact hinv t' ht')
      [] l hl t ht with h | h
  · cases h
  · exact h

theorem clip3d_loop1_ok (cache1 cache2 : List V2) (m1 m2 : ConvexPolyface V3)
    (ref_pt b0 b1 normal : V3)
    (hlen1 : cache1.length = m1.vertices.length)
    (hlen2 : cache1.length = m1.vertices_id.length)
    (hn2 : 2 < cache2.length → ∃ v, m2.normal = some v)
    (hp2 : 2 < cache2.length → ∃ p, m2.vertices.get? 0 = some p) :
    ∃ l, clip3d_loop1 cache1 cache2 m1 m2 ref_pt b0 b1 normal = .ok l := by
  by_cases hg : 2 < cache2.length
  · obtain ⟨v, hv⟩ := hn2 hg
    obtain ⟨p, hp⟩ := hp2 hg
    exact ⟨_, clip3d_loop1_eq cache1 cache2 m1 m2 ref_pt b0 b1 normal v p
      hlen1 hlen2 hv hp hg⟩
  · exact ⟨[], by unfold clip3d_loop1; rw [if_neg hg]; rfl⟩

theorem clip3d_loop2_ok (cache1 cache2 : List V2) (m1 m2 : ConvexPolyface V3)
    (ref_pt b0 b1 normal : V3)
    (hlen1 : cache2.length = m2.vertices.length)
    (hlen2 : cache2.length = m2.vertices_id.length)
    (hn1 : 2 < cache1.length → ∃ v, m1.normal = some v)
    (hp1 : 2 < cache1.length → ∃ p, m1.vertices.get? 0 = some p) :
    ∃ l, clip3d_loop2 cache1 cache2 m1 m2 ref_pt b0 b1 normal = .ok l
      ∧ ∀ t ∈ l, t.2.1 = m1.feature_id := by
  by_cases hg : 2 < cache1.length
  · obtain ⟨v, hv⟩ := hn1 hg
    obtain ⟨p, hp⟩ := hp1 hg
    refine ⟨_, clip3d_loop2_eq cache1 cache2 m1 m2 ref_pt b0 b1 normal v p
      hlen1 hlen2 hv hp hg, ?_⟩
    intro t ht
    rcases List.mem_flatMap.mp ht with ⟨i, -, hti⟩
    split at hti
    · rcases List.mem_singleton.mp hti with rfl
      rfl
    · cases hti
  · exact ⟨[], by unfold clip3d_loop2; rw [if_neg hg]; rfl, by simp⟩

theorem projectVerts_length (verts : List V3) (ref_pt b0 b1 : V3) :
    (projectVerts verts ref_pt b0 b1).length = verts.length := by
  unfold projectVerts
  exact List.length_map _ _

theorem clip_polyfaces_3d_ok (b0 b1 : V3) (m1 m2 : ConvexPolyface V3)
    (normal : V3)
    (hid1 : m1.vertices_id.length = m1.vertices.length)
    (hid2 : m2.vertices_id.length = m2.vertices.length)
    (he1 : m1.nedges ≤ m1.edges_id.length)
    (he2 : m2.nedges ≤ m2.edges_id.length)
    (hn1 : 2 < m1.vertices.length → ∃ v, m1.normal = some v)
    (hn2 : 2 < m2.vertices.length → ∃ v, m2.normal = some v)
    (hne : m1.vertices ≠ []) :
    ∃ l, clip_polyfaces_3d b0 b1 m1 m2 normal = .ok l := by
  by_cases hdeg : m1.vertices.length ≤ 2 ∧ m2.vertices.length ≤ 2
  · exact ⟨[], by unfold clip_polyfaces_3d; rw [if_pos hdeg]⟩
  · have h0 : 0 < m1.vertices.length := List.length_pos.mpr hne
    obtain ⟨r, hr⟩ := get?_some_of_lt h0
    have hc1 : (projectVerts m1.vertices r b0 b1).length = m1.vertices.length :=
      projectVerts_length _ _ _ _
    have hc2 : (projectVerts m2.vertices r b0 b1).length = m2.vertices.length :=
      projectVerts_length _ _ _ _
    obtain ⟨l1, hl1⟩ := clip3d_loop1_ok (projectVerts m1.vertices r b0 b1)
      (projectVerts m2.vertices r b0 b1) m1 m2 r b0 b1 normal
      (by rw [hc1]) (by rw [hc1, hid1])
      (fun hg => hn2 (by rw [hc2] at hg; exact hg))
      (fun hg => get?_some_of_lt (by rw [hc2] at hg; omega))
    obtain ⟨l2, hl2, -⟩ := clip3d_loop2_ok (projectVerts m1.vertices r b0 b1)
      (projectVerts m2.vertices r b0 b1) m1 m2 r b0 b1 normal
      (by rw [hc2]) (by rw [hc2, hid2])
      (fun hg => hn1 (by rw [hc1] at hg; exact hg))
      (fun hg => get?_some_of_lt (by rw [hc1] at hg; omega))
    obtain ⟨le, hle, -⟩ := clip3d_edges_spec (projectVerts m1.vertices r b0 b1)
      (projectVerts m2.vertices r b0 b1) m1 m2 normal hc1 hc2 he1 he2
    refine ⟨l1 ++ l2 ++ le, ?_⟩
    unfold clip_polyfaces_3d
    rw [if_neg hdeg, hr]
    simp only [exceptOfOption, exc_bind_ok]
    rw [hl1, exc_bind_ok, hl2, exc_bind_ok, hle, exc_bind_ok]

theorem pure_ne_err {β : Type} (a : β) (msg : String) :
    (pure a : Except String β) ≠ .error msg := fun h => Except.noConfusion h

theorem bindE_ne {α β : Type} (msgA msgB : String) (hne : msgA ≠ msgB)
    (o : Option α) (f : α → Except String β)
    (hf : ∀ a, o = some a → f a ≠ .error msgB) :
    (exceptOfOption msgA o >>= f) ≠ .error msgB := by
  cases o with
  | none =>
    intro h
    rw [show exceptOfOption msgA (none : Option α) = .error msgA from rfl,
      exc_bind_err] at h
    injection h with h'
    exact hne h'
  | some a =>
    rw [show exceptOfOption msgA (some a) = .ok a from rfl, exc_bind_ok]
    exact hf a rfl

theorem idx_ne_normal : idxMsg ≠ normalMsg := by
  unfold idxMsg normalMsg; decide

theorem clip3d_loop1_ne_normal (cache1 cache2 : List V2)
    (m1 m2 : ConvexPolyface V3) (ref_pt b0 b1 normal : V3)
    (hn2 : 2 < cache2.length → ∃ v, m2.normal = some v) :
    clip3d_loop1 cache1 cache2 m1 m2 ref_pt b0 b1 normal
      ≠ .error normalMsg := by
  unfold clip3d_loop1
  split
  · next hg =>
    obtain ⟨v, hv⟩ := hn2 hg
    refine foldlM_ne_err _ _ _ ?_ []
    intro b i _
    refine bindE_ne _ _ idx_ne_normal _ _ ?_
    intro pt _
    dsimp only
    split
    · rw [hv]
      rw [show exceptOfOption normalMsg (some v) = .ok v from rfl, exc_bind_ok]
      refine bindE_ne _ _ idx_ne_normal _ _ ?_
      intro p2 _
      refine bindE_ne _ _ idx_ne_normal _ _ ?_
      intro w1 _
      refine bindE_ne _ _ idx_ne_normal _ _ ?_
      intro f1 _
      exact pure_ne_err _ _
    · exact pure_ne_err _ _
  · exact pure_ne_err _ _

theorem clip3d_loop2_ne_normal (cache1 cache2 : List V2)
    (m1 m2 : ConvexPolyface V3) (ref_pt b0 b1 normal : V3)
    (hn1 : 2 < cache1.length → ∃ v, m1.normal = some v) :
    clip3d_loop2 cache1 cache2 m1 m2 ref_pt b0 b1 normal
      ≠ .error normalMsg := by
  unfold clip3d_loop2
  split
  · next hg =>
    obtain ⟨v, hv⟩ := hn1 hg
    refine foldlM_ne_err _ _ _ ?_ []
    intro b i _
    refine bindE_ne _ _ idx_ne_normal _ _ ?_
    intro pt _
    dsimp only
    split
    · rw [hv]
      rw [show exceptOfOption normalMsg (some v) = .ok v from rfl, exc_bind_ok]
      refine bindE_ne _ _ idx_ne_normal _ _ ?_
      intro p1 _
      refine bindE_ne _ _ idx_ne_normal _ _ ?_
      intro w2 _
      refine bindE_ne _ _ idx_ne_normal _ _ ?_
      intro f2 _
      exact pure_ne_err _ _
    · exact pure_ne_err _ _
  · exact pure_ne_err _ _

theorem clip3d_edges_inner_ne_normal (cache2 : List V2)
    (m1 m2 : ConvexPolyface V3) (normal : V3) (i1 j1 : ℕ) (seg1 : Seg V2)
    (acc2 : List Tri3) (i2 : ℕ) :
    clip3d_edges_inner cache2 m1 m2 normal i1 j1 seg1 acc2 i2
      ≠ .error normalMsg := by
  unfold clip3d_edges_inner
  dsimp only
  refine bindE_ne _ _ idx_ne_normal _ _ ?_
  intro p2a _
  refine bindE_ne _ _ idx_ne_normal _ _ ?_
  intro p2b _
  rcases segment_against_segment_with_locations seg1 (Seg.mk p2a p2b)
    with ⟨l1, l2⟩
  cases l1 with
  | OnVertex k => exact pure_ne_err _ _
  | OnEdge u1 v1 =>
    cases l2 with
    | OnVertex k => exact pure_ne_err _ _
    | OnEdge u2 v2 =>
      refine bindE_ne _ _ idx_ne_normal _ _ ?_
      intro o1a _
      refine bindE_ne _ _ idx_ne_normal _ _ ?_
      intro o1b _
      refine bindE_ne _ _ idx_ne_normal _ _ ?_
      intro o2a _
      refine bindE_ne _ _ idx_ne_normal _ _ ?_
      intro o2b _
      refine bindE_ne _ _ idx_ne_normal _ _ ?_
      intro f1 _
      refine bindE_ne _ _ idx_ne_normal _ _ ?_
      intro f2 _
      exact pure_ne_err _ _

theorem foldlM_ne_err_all {α β : Type} (f : β → α → Except String β)
    (l : List α) (msg : String)
    (hstep : ∀ b a, f b a ≠ .error msg) (init : β) :
    l.foldlM f init ≠ .error msg :=
  foldlM_ne_err f l msg (fun b a _ => hstep b a) init

theorem clip3d_edges_outer_ne_normal (cache1 cache2 : List V2)
    (m1 m2 : ConvexPolyface V3) (normal : V3) (acc : List Tri3) (i1 : ℕ) :
    clip3d_edges_outer cache1 cache2 m1 m2 normal acc i1
      ≠ .error normalMsg := by
  unfold clip3d_edges_outer
  dsimp only
  refine bindE_ne _ _ idx_ne_normal _ _ ?_
  intro p1a _
  refine bindE_ne _ _ idx_ne_normal _ _ ?_
  intro p1b _
  exact foldlM_ne_err_all _ _ _
    (fun b a => clip3d_edges_inner_ne_normal cache2 m1 m2 normal i1 _ _ b a)
    acc

theorem clip3d_edges_ne_normal (cache1 cache2 : List V2)
    (m1 m2 : ConvexPolyface V3) (normal : V3) :
    clip3d_edges cache1 cache2 m1 m2 normal ≠ .error normalMsg := by
  unfold clip3d_edges
  exact foldlM_ne_err_all _ _ _
    (fun b a => clip3d_edges_outer_ne_normal cache1 cache2 m1 m2 normal b a) []

theorem bind_ne_err {α β : Type} (x : Except String α)
    (f : α → Except String β) (msg : String) (hx : x ≠ .error msg)
    (hf : ∀ a, f a ≠ .error msg) : (x >>= f) ≠ .error msg := by
  cases x with
  | error e =>
    intro h
    rw [exc_bind_err] at h
    exact hx (by injection h with h'; rw [h'])
  | ok a => rw [exc_bind_ok]; exact hf a

/-- C10: in the 3D clipping regime, the optional outward normal of a
polyface is only unwrapped inside a branch guarded by the projected
polygon having more than two vertices; hence under the precondition that
every polyface with at least three vertices carries its outward normal,
the normal-unwrap failure is unreachable — `clip_polyfaces_3d` can never
produce the missing-normal panic, whatever else the inputs look like. -/
theorem spec_C10 (b0 b1 : V3) (m1 m2 : ConvexPolyface V3) (normal : V3)
    (hn1 : 3 ≤ m1.vertices.length → ∃ v, m1.normal = some v)
    (hn2 : 3 ≤ m2.vertices.length → ∃ v, m2.normal = some v) :
    clip_polyfaces_3d b0 b1 m1 m2 normal ≠ .error normalMsg := by
  unfold clip_polyfaces_3d
  split
  · exact fun h => Except.noConfusion h
  · refine bindE_ne _ _ idx_ne_normal _ _ ?_
    intro r _
    dsimp only
    refine bind_ne_err _ _ _
      (clip3d_loop1_ne_normal _ _ m1 m2 r b0 b1 normal fun hg => hn2 (by
        rw [projectVerts_length] at hg; omega)) ?_
    intro l1
    refine bind_ne_err _ _ _
      (clip3d_loop2_ne_normal _ _ m1 m2 r b0 b1 normal fun hg => hn1 (by
        rw [projectVerts_length] at hg; omega)) ?_
    intro l2
    refine bind_ne_err _ _ _ (clip3d_edges_ne_normal _ _ m1 m2 normal) ?_
    intro le
    exact fun h => Except.noConfusion h

/-- Witness for C10: a concrete degenerate pair (no normals at all, but
few vertices) cannot produce the missing-normal panic. -/
theorem spec_C10_witness :
    clip_polyfaces_3d ⟨1, 0, 0⟩ ⟨0, 1, 0⟩
        ⟨[⟨0, 0, 0⟩, ⟨1, 0, 0⟩], [.vertex 0, .vertex 1], [.edge 0], none,
          .edge 0, []⟩
        ⟨[⟨0, 0, 1⟩, ⟨1, 0, 1⟩], [.vertex 0, .vertex 1], [.edge 0], none,
          .edge 0, []⟩
        ⟨0, 0, 1⟩
      ≠ .error normalMsg :=
  spec_C10 ⟨1, 0, 0⟩ ⟨0, 1, 0⟩
    ⟨[⟨0, 0, 0⟩, ⟨1, 0, 0⟩], [.vertex 0, .vertex 1], [.edge 0], none,
      .edge 0, []⟩
    ⟨[⟨0, 0, 1⟩, ⟨1, 0, 1⟩], [.vertex 0, .vertex 1], [.edge 0], none,
      .edge 0, []⟩
    ⟨0, 0, 1⟩ (by intro h; simp at h) (by intro h; simp at h)

/-- C4: the clipping routine completes without a runtime error on well
formed polyfaces for every numeric edge case. In 2D (parallel feature-id
arrays) it always lands in one of the defined branches, emitting zero or
exactly two contacts — in particular a zero interpolation denominator
`length1` or `length2` only flows into a total rational division, never a
panic. In 3D (parallel arrays, per-edge ids, normals present on faces,
nonempty face A) the routine always returns a contact list. -/
theorem spec_C4 :
    (∀ (m1 m2 : ConvexPolyface V2) (normal : V2),
      m1.vertices_id.length = m1.vertices.length →
      m2.vertices_id.length = m2.vertices.length →
      ∃ l, clip_polyfaces_2d m1 m2 normal = .ok l
        ∧ (l.length = 0 ∨ l.length = 2)) ∧
    (∀ (b0 b1 : V3) (m1 m2 : ConvexPolyface V3) (normal : V3),
      m1.vertices_id.length = m1.vertices.length →
      m2.vertices_id.length = m2.vertices.length →
      m1.nedges ≤ m1.edges_id.length →
      m2.nedges ≤ m2.edges_id.length →
      (2 < m1.vertices.length → ∃ v, m1.normal = some v) →
      (2 < m2.vertices.length → ∃ v, m2.normal = some v) →
      m1.vertices ≠ [] →
      ∃ l, clip_polyfaces_3d b0 b1 m1 m2 normal = .ok l) := by
  constructor
  · intro m1 m2 normal hid1 hid2
    by_cases hdeg : m1.vertices.length ≤ 1 ∨ m2.vertices.length ≤ 1
    · exact ⟨[], by unfold clip_polyfaces_2d; rw [if_pos hdeg], Or.inl rfl⟩
    · push_neg at hdeg
      obtain ⟨h1, h2⟩ := hdeg
      obtain ⟨a1, ha1⟩ := get?_some_of_lt (l := m1.vertices) (n := 0) (by omega)
      obtain ⟨a2, ha2⟩ := get?_some_of_lt (l := m1.vertices) (n := 1) (by omega)
      obtain ⟨b1', hb1⟩ := get?_some_of_lt (l := m2.vertices) (n := 0) (by omega)
      obtain ⟨b2', hb2⟩ := get?_some_of_lt (l := m2.vertices) (n := 1) (by omega)
      obtain ⟨fa1, hfa1⟩ := get?_some_of_lt (l := m1.vertices_id) (n := 0)
        (by omega)
      obtain ⟨fa2, hfa2⟩ := get?_some_of_lt (l := m1.vertices_id) (n := 1)
        (by omega)
      obtain ⟨fb1, hfb1⟩ := get?_some_of_lt (l := m2.vertices_id) (n := 0)
        (by omega)
      obtain ⟨fb2, hfb2⟩ := get?_some_of_lt (l := m2.vertices_id) (n := 1)
        (by omega)
      unfold clip_polyfaces_2d
      rw [if_neg (by omega)]
      rw [ha1, ha2, hb1, hb2, hfa1, hfa2, hfb1, hfb2]
      simp only [exceptOfOption, exc_bind_ok]
      split
      · exact ⟨[], rfl, Or.inl rfl⟩
      · exact ⟨_, rfl, Or.inr rfl⟩
  · intro b0 b1 m1 m2 normal hid1 hid2 he1 he2 hn1 hn2 hne
    exact clip_polyfaces_3d_ok b0 b1 m1 m2 normal hid1 hid2 he1 he2 hn1 hn2 hne

/-- Witness for C4: the concrete 2D pair of C7 (which exercises the
overlapping branch) returns a defined two-contact list, and a concrete
degenerate-plus-square 3D pair (which exercises a zero-length projected
span in the edge loop) returns a defined list. -/
theorem spec_C4_witness :
    (∃ l, clip_polyfaces_2d c7_m1 c7_m2 ⟨0, 1⟩ = .ok l
      ∧ (l.length = 0 ∨ l.length = 2)) ∧
    (∃ l, clip_polyfaces_3d ⟨1, 0, 0⟩ ⟨0, 1, 0⟩
        ⟨[⟨0, 0, 1⟩, ⟨0, 0, 1⟩], [.vertex 0, .vertex 1], [.edge 0], none,
          .edge 0, []⟩
        ⟨[⟨0, 0, 0⟩, ⟨2, 0, 0⟩, ⟨2, 2, 0⟩, ⟨0, 2, 0⟩],
          [.vertex 0, .vertex 1, .vertex 2, .vertex 3],
          [.edge 0, .edge 1, .edge 2, .edge 3], some ⟨0, 0, 1⟩, .face 0, []⟩
        ⟨0, 0, 1⟩
      = .ok l) := by
  constructor
  · exact spec_C4.1 c7_m1 c7_m2 ⟨0, 1⟩ rfl rfl
  · exact spec_C4.2 ⟨1, 0, 0⟩ ⟨0, 1, 0⟩ _ _ ⟨0, 0, 1⟩ rfl rfl
      (by decide) (by decide) (by intro h; simp at h)
      (by intro h; exact ⟨⟨0, 0, 1⟩, rfl⟩) (by simp)

theorem countP_flatMap {α β : Type} (p : β → Bool) (l : List α)
    (g : α → List β) :
    List.countP p (l.flatMap g) = (l.map fun a => List.countP p (g a)).sum := by
  rw [show l.flatMap g = (l.map g).flatten from rfl, List.countP_flatten,
    List.map_map]
  rfl

theorem sum_map_range_indicator (f : ℕ → ℕ) (i0 : ℕ) (h1 : f i0 = 1) :
    ∀ n, i0 < n → (∀ i, i < n → i ≠ i0 → f i = 0) →
      ((List.range n).map f).sum = 1 := by
  intro n
  induction n with
  | zero => omega
  | succ m ih =>
    intro hi0 h0
    rw [List.range_succ, List.map_append, List.sum_append]
    by_cases hm : i0 = m
    · subst hm
      have hz : ((List.range i0).map f).sum = 0 := by
        apply List.sum_eq_zero
        intro x hx
        rcases List.mem_map.mp hx with ⟨i, hi, rfl⟩
        have hilt := List.mem_range.mp hi
        exact h0 i (by omega) (by omega)
      simp [hz, h1]
    · have hfm : f m = 0 := h0 m (Nat.lt_succ_self m) (fun he => hm he.symm)
      rw [ih (by omega) (fun i hi hne => h0 i (by omega) hne)]
      simp [hfm]

theorem onplane_calc (normal n2 origin p2 : V3) (h : dot3 normal n2 ≠ 0) :
    dot3 n2 (origin + (plane_toi_with_line p2 n2 origin normal) • normal - p2)
      = 0 := by
  unfold plane_toi_with_line dot3 at *
  simp only [v3_add_def, v3_sub_def, v3_smul_def]
  field_simp
  ring

/-- C8: in the 3D regime, when face B has more than two vertices and the
`i0`-th vertex of face A projects strictly inside face B's projected
polygon, the clip emits exactly one contact keyed by that vertex's id and
face B's whole-feature id, and every contact carrying that vertex key has
its point on shape B lying on face B's plane (the plane through B's first
vertex with B's outward normal), obtained by ray-casting along the shared
normal. -/
theorem spec_C8 (b0 b1 : V3) (m1 m2 : ConvexPolyface V3) (normal : V3)
    (n2 r p2 : V3) (i0 : ℕ) (fv : FeatureId)
    (hid1 : m1.vertices_id.length = m1.vertices.length)
    (hid2 : m2.vertices_id.length = m2.vertices.length)
    (he1 : m1.nedges ≤ m1.edges_id.length)
    (he2 : m2.nedges ≤ m2.edges_id.length)
    (hn1 : 2 < m1.vertices.length → ∃ v, m1.normal = some v)
    (hnodup : m1.vertices_id.Nodup)
    (hB : 2 < m2.vertices.length)
    (hn2 : m2.normal = some n2)
    (hr : m1.vertices.get? 0 = some r)
    (hp2 : m2.vertices.get? 0 = some p2)
    (hi0 : i0 < m1.vertices.length)
    (hfv : m1.vertices_id.get? i0 = some fv)
    (hin : point_in_poly2d ((projectVerts m1.vertices r b0 b1).getD i0 0)
      (projectVerts m2.vertices r b0 b1) = true)
    (hface : m1.feature_id ≠ fv)
    (hedges : ∀ e ∈ m1.edges_id, e ≠ fv)
    (hdenom : dot3 normal n2 ≠ 0) :
    ∃ l, clip_polyfaces_3d b0 b1 m1 m2 normal = .ok l
      ∧ (l.countP fun t => t.2.1 == fv && t.2.2 == m2.feature_id) = 1
      ∧ ∀ t ∈ l, t.2.1 = fv → dot3 n2 (t.1.world2 - p2) = 0 := by
  have hc1 : (projectVerts m1.vertices r b0 b1).length = m1.vertices.length :=
    projectVerts_length _ _ _ _
  have hc2 : (projectVerts m2.vertices r b0 b1).length = m2.vertices.length :=
    projectVerts_length _ _ _ _
  have hg2 : 2 < (projectVerts m2.vertices r b0 b1).length := by
    rw [hc2]; exact hB
  have hi0id : i0 < m1.vertices_id.length := by rw [hid1]; exact hi0
  have hfv' : m1.vertices_id.get ⟨i0, hi0id⟩ = fv := by
    rw [List.get?_eq_get hi0id] at hfv
    injection hfv
  have hl1 := clip3d_loop1_eq (projectVerts m1.vertices r b0 b1)
    (projectVerts m2.vertices r b0 b1) m1 m2 r b0 b1 normal n2 p2
    hc1 (by rw [hc1, hid1]) hn2 hp2 hg2
  obtain ⟨l2, hl2, hl2inv⟩ := clip3d_loop2_ok
    (projectVerts m1.vertices r b0 b1) (projectVerts m2.vertices r b0 b1)
    m1 m2 r b0 b1 normal (by rw [hc2]) (by rw [hc2, hid2])
    (fun hg => hn1 (by rw [hc1] at hg; exact hg))
    (fun hg => get?_some_of_lt (by rw [hc1] at hg; omega))
  obtain ⟨le, hle, hleinv⟩ := clip3d_edges_spec
    (projectVerts m1.vertices r b0 b1) (projectVerts m2.vertices r b0 b1)
    m1 m2 normal hc1 hc2 he1 he2
  have hdeg : ¬(m1.vertices.length ≤ 2 ∧ m2.vertices.length ≤ 2) := by omega
  have hmain : clip_polyfaces_3d b0 b1 m1 m2 normal
      = .ok (((List.range (projectVerts m1.vertices r b0 b1).length).flatMap
          fun i =>
            if point_in_poly2d ((projectVerts m1.vertices r b0 b1).getD i 0)
                (projectVerts m2.vertices r b0 b1)
            then [loop1_entry (projectVerts m1.vertices r b0 b1) m1 m2 r b0 b1
                normal n2 p2 i]
            else []) ++ l2 ++ le) := by
    unfold clip_polyfaces_3d
    rw [if_neg hdeg, hr]
    simp only [exceptOfOption, exc_bind_ok]
    rw [hl1, exc_bind_ok, hl2, exc_bind_ok, hle, exc_bind_ok]
  refine ⟨_, hmain, ?_, ?_⟩
  · rw [List.countP_append, List.countP_append]
    have hz2 : (l2.countP fun t => t.2.1 == fv && t.2.2 == m2.feature_id)
        = 0 := by
      rw [List.countP_eq_zero]
      intro t ht
      have := hl2inv t ht
      simp [this, hface]
    have hze : (le.countP fun t => t.2.1 == fv && t.2.2 == m2.feature_id)
        = 0 := by
      rw [List.countP_eq_zero]
      intro t ht
      have := hedges _ (hleinv t ht)
      simp [this]
    rw [hz2, hze, countP_flatMap]
    have hone : List.countP
        (fun t => t.2.1 == fv && t.2.2 == m2.feature_id)
        (if point_in_poly2d ((projectVerts m1.vertices r b0 b1).getD i0 0)
            (projectVerts m2.vertices r b0 b1)
          then [loop1_entry (projectVerts m1.vertices r b0 b1) m1 m2 r b0 b1
              normal n2 p2 i0]
          else []) = 1 := by
      rw [if_pos hin]
      simp [loop1_entry, List.countP_cons, ← List.get?_eq_getElem?, hfv]
    have h0 : ∀ i, i < (projectVerts m1.vertices r b0 b1).length → i ≠ i0 →
        List.countP (fun t => t.2.1 == fv && t.2.2 == m2.feature_id)
          (if point_in_poly2d ((projectVerts m1.vertices r b0 b1).getD i 0)
              (projectVerts m2.vertices r b0 b1)
            then [loop1_entry (projectVerts m1.vertices r b0 b1) m1 m2 r b0 b1
                normal n2 p2 i]
            else []) = 0 := by
      intro i hilt hine
      split
      · have hiid : i < m1.vertices_id.length := by
          rw [hid1, ← hc1]; exact hilt
        have hneq : m1.vertices_id.get ⟨i, hiid⟩ ≠ fv := by
          rw [← hfv']
          intro he
          have hfin : (⟨i, hiid⟩ : Fin m1.vertices_id.length) = ⟨i0, hi0id⟩ :=
            (hnodup.get_inj_iff).mp he
          exact hine (congrArg Fin.val hfin)
        simp only [loop1_entry, List.countP_cons, List.countP_nil,
          List.getD_eq_getElem?_getD, List.getElem?_eq_getElem hiid,
          Option.getD_some]
        simp only [Bool.and_eq_true, beq_iff_eq]
        rw [if_neg fun hc => hneq ((List.get_eq_getElem _ _).trans hc.1)]
      · simp
    rw [sum_map_range_indicator _ i0 hone
      (projectVerts m1.vertices r b0 b1).length (by rw [hc1]; exact hi0) h0]
  · intro t ht hkey
    rcases List.mem_append.mp ht with ht' | hte
    · rcases List.mem_append.mp ht' with ht1 | ht2
      · rcases List.mem_flatMap.mp ht1 with ⟨i, -, hti⟩
        split at hti
        · rcases List.mem_singleton.mp hti with rfl
          exact onplane_calc normal n2 _ p2 hdenom
        · cases hti
      · exact absurd (hl2inv t ht2 ▸ hkey) hface
    · exact absurd hkey (hedges _ (hleinv t hte))

/-- Face A for the C8 witness: a triangle whose first vertex projects
strictly inside face B's square. -/
def c8_m1 : ConvexPolyface V3 :=
  ⟨[⟨1, 1, 1⟩, ⟨5, 1, 1⟩, ⟨1, 5, 1⟩], [.vertex 0, .vertex 1, .vertex 2],
   [.edge 0, .edge 1, .edge 2], some ⟨0, 0, 1⟩, .face 0, []⟩

/-- Face B for the C8 witness: a square in the plane `z = 0`. -/
def c8_m2 : ConvexPolyface V3 :=
  ⟨[⟨0, 0, 0⟩, ⟨2, 0, 0⟩, ⟨2, 2, 0⟩, ⟨0, 2, 0⟩],
   [.vertex 0, .vertex 1, .vertex 2, .vertex 3],
   [.edge 0, .edge 1, .edge 2, .edge 3], some ⟨0, 0, 1⟩, .face 1, []⟩

/-- Witness for C8 at concrete faces: exactly one (vertex 0 of A, face B)
contact, whose point on B lies on B's plane. -/
theorem spec_C8_witness :
    ∃ l, clip_polyfaces_3d ⟨1, 0, 0⟩ ⟨0, 1, 0⟩ c8_m1 c8_m2 ⟨0, 0, 1⟩ = .ok l
      ∧ (l.countP fun t => t.2.1 == FeatureId.vertex 0
          && t.2.2 == c8_m2.feature_id) = 1
      ∧ ∀ t ∈ l, t.2.1 = FeatureId.vertex 0 →
          dot3 ⟨0, 0, 1⟩ (t.1.world2 - ⟨0, 0, 0⟩) = 0 :=
  spec_C8 ⟨1, 0, 0⟩ ⟨0, 1, 0⟩ c8_m1 c8_m2 ⟨0, 0, 1⟩ ⟨0, 0, 1⟩ ⟨1, 1, 1⟩
    ⟨0, 0, 0⟩ 0 (.vertex 0) rfl rfl (by decide) (by decide)
    (fun _ => ⟨⟨0, 0, 1⟩, rfl⟩) (by decide) (by decide) rfl rfl rfl
    (by decide) rfl (by decide) (by decide) (by decide) (by decide)

theorem push_pairs (m : ContactManifold) (c : Contact V3) (l1 l2 : V3)
    (n1 n2 : NormalCone) (f1 f2 : FeatureId) (kin : ContactKinematic)
    (ids : IdAllocator) :
    ∀ r ∈ (m.push c l1 l2 n1 n2 f1 f2 kin ids).1.records,
      (r.f1 = f1 ∧ r.f2 = f2) ∨ r ∈ m.records := by
  unfold ContactManifold.push
  intro r hr
  dsimp only at hr
  rcases hfind : m.records.find? (fun r => r.f1 == f1 && r.f2 == f2) with
    _ | old
  · rcases hcache : m.cache.find? (fun r => r.f1 == f1 && r.f2 == f2) with
      _ | old2
    · rw [hfind, hcache] at hr
      dsimp only at hr
      rcases List.mem_append.mp hr with h | h
      · exact Or.inr h
      · rcases List.mem_singleton.mp h with rfl
        exact Or.inl ⟨rfl, rfl⟩
    · rw [hfind, hcache] at hr
      dsimp only at hr
      rcases List.mem_append.mp hr with h | h
      · exact Or.inr h
      · rcases List.mem_singleton.mp h with rfl
        exact Or.inl ⟨rfl, rfl⟩
  · rw [hfind] at hr
    dsimp only at hr
    rcases List.mem_map.mp hr with ⟨r0, hr0, hmap⟩
    by_cases hc : (r0.f1 == f1 && r0.f2 == f2) = true
    · rw [if_pos hc] at hmap
      rcases hmap.symm with rfl
      exact Or.inl ⟨rfl, rfl⟩
    · rw [if_neg hc] at hmap
      rcases hmap.symm with rfl
      exact Or.inr hr0

theorem save_fold_pairs
    (f : (ContactManifold × IdAllocator) → Tri3 →
      Except String (ContactManifold × IdAllocator)) (l : List Tri3)
    (hstep : ∀ acc t res, t ∈ l → f acc t = .ok res →
      ∀ r ∈ res.1.records,
        (r.f1 = t.2.1 ∧ r.f2 = t.2.2) ∨ r ∈ acc.1.records) :
    ∀ acc res, l.foldlM f acc = .ok res →
      ∀ r ∈ res.1.records,
        (∃ t ∈ l, r.f1 = t.2.1 ∧ r.f2 = t.2.2) ∨ r ∈ acc.1.records := by
  induction l with
  | nil =>
    intro acc res hrun r hrr
    rw [foldlM_nil_exc] at hrun
    cases hrun
    exact Or.inr hrr
  | cons x xs ih =>
    intro acc res hrun r hrr
    rw [foldlM_cons_exc] at hrun
    cases hfx : f acc x with
    | error e => rw [hfx, exc_bind_err] at hrun; cases hrun
    | ok b =>
      rw [hfx, exc_bind_ok] at hrun
      rcases ih (fun a t r' ht => hstep a t r' (List.mem_cons_of_mem _ ht))
          b res hrun r hrr with ⟨t, ht, hp⟩ | hb
      · exact Or.inl ⟨t, List.mem_cons_of_mem _ ht, hp⟩
      · rcases hstep acc x b (List.mem_cons_self x xs) hfx r hb with hp | hacc
        · exact Or.inl ⟨x, List.mem_cons_self x xs, hp⟩
        · exact Or.inr hacc

/-- C3: after every successful `update`, each record of the persistent
manifold carries a feature-id pair pushed during that very update (its
pair occurs in the raw-contact list produced by the query-and-clip phase);
consequently a pair present before the update but not reproduced by it is
absent afterwards (eviction). -/
theorem spec_C3 {S : Type} (basisOf : V3 → V3 × V3)
    (query : ℚ → S → Option V3 → GJKResult × S) (ma : Iso) (a : ShapeModel)
    (mb : Iso) (b : ShapeModel) (prediction : ContactPrediction)
    (ids : IdAllocator) (st : GenState S) (sma smb : SupportMapImpl)
    (ha : a.as_support_map = some sma) (hb : b.as_support_map = some smb)
    (st' : GenState S) (ids' : IdAllocator)
    (hrun : update basisOf query ma a mb b prediction ids st
      = .ok (st', ids', true)) :
    ∃ st3, compute_new_contacts basisOf query ma sma mb smb prediction st
        = .ok st3
      ∧ (∀ r ∈ st'.contact_manifold.records,
          ∃ t ∈ st3.new_contacts, r.f1 = t.2.1 ∧ r.f2 = t.2.2)
      ∧ ∀ p1 p2 : FeatureId,
          (∀ t ∈ st3.new_contacts, ¬(p1 = t.2.1 ∧ p2 = t.2.2)) →
          ∀ r ∈ st'.contact_manifold.records, ¬(r.f1 = p1 ∧ r.f2 = p2) := by
  unfold update at hrun
  rw [ha, hb] at hrun
  dsimp only at hrun
  cases hc : compute_new_contacts basisOf query ma sma mb smb prediction st with
  | error e => rw [hc, exc_bind_err] at hrun; cases hrun
  | ok st3 =>
    rw [hc, exc_bind_ok] at hrun
    cases hs : save_new_contacts_as_contact_manifold ma sma mb smb ids st3 with
    | error e => rw [hs, exc_bind_err] at hrun; cases hrun
    | ok res =>
      obtain ⟨resSt, resIds⟩ := res
      rw [hs, exc_bind_ok] at hrun
      simp only [pure, Except.pure, Except.ok.injEq, Prod.mk.injEq] at hrun
      obtain ⟨hst', -, -⟩ := hrun
      unfold save_new_contacts_as_contact_manifold at hs
      dsimp only at hs
      cases hfold : st3.new_contacts.foldlM
          (fun acc t => do
            let (c, f1, f2) := t
            let kin ← contact_kinematic 3 ma st3.manifold1 f1 mb
              st3.manifold2 f2
            let local1 := ma.inverse_transform_point c.world1
            let local2 := mb.inverse_transform_point c.world2
            let n1 := sma.normal_cone local1 f1
            let n2 := smb.normal_cone local2 f2
            let p := acc.1.push c local1 local2 n1 n2 f1 f2 kin acc.2
            pure (p.1, p.2.1))
          (st3.contact_manifold.save_cache_and_clear ids) with
      | error e =>
        rw [hfold] at hs
        exact absurd hs (by simp [exc_bind_err])
      | ok resf =>
        rw [hfold, exc_bind_ok] at hs
        simp only [pure, Except.pure, Except.ok.injEq, Prod.mk.injEq] at hs
        obtain ⟨hres1, -⟩ := hs
        have hpairs := save_fold_pairs _ st3.new_contacts
          (fun acc t res ht hok => by
            rcases t with ⟨c, f1, f2⟩
            dsimp only at hok
            cases hk : contact_kinematic 3 ma st3.manifold1 f1 mb
                st3.manifold2 f2 with
            | error e => rw [hk, exc_bind_err] at hok; cases hok
            | ok kin =>
              rw [hk, exc_bind_ok] at hok
              simp only [pure, Except.pure, Except.ok.injEq] at hok
              intro r hr
              rcases push_pairs acc.1 c _ _ _ _ f1 f2 kin acc.2 r
                  (by rw [← hok] at hr; exact hr) with h | h
              · exact Or.inl h
              · exact Or.inr h)
          (st3.contact_manifold.save_cache_and_clear ids) resf hfold
        refine ⟨st3, rfl, ?_, ?_⟩
        · intro r hr
          rw [← hst', ← hres1] at hr
          rcases hpairs r hr with h | h
          · exact h
          · exact absurd h (by
              simp [ContactManifold.save_cache_and_clear])
        · rintro p1 p2 hnone r hr ⟨hr1, hr2⟩
          rw [← hst', ← hres1] at hr
          rcases hpairs r hr with ⟨t, ht, h1, h2⟩ | h
          · exact hnone t ht ⟨hr1 ▸ h1, hr2 ▸ h2⟩
          · exact absurd h (by
              simp [ContactManifold.save_cache_and_clear])

/-- A GJK oracle reporting a shallow projection (separated witness
contact of depth `-1` along `(0,0,1)`). -/
def fx_query_proj : ℚ → Unit → Option V3 → GJKResult × Unit :=
  fun _ _ _ =>
    (.Projection ⟨⟨0, 0, 0⟩, ⟨0, 0, 0⟩, ⟨0, 0, 1⟩, -1⟩ ⟨0, 0, 1⟩, ())

/-- The generator state after the witness update for C3: the fallback
single witness contact, keyed by the two whole-feature ids, is the sole
manifold record. -/
def c3_after : GenState Unit :=
  ⟨(), some ⟨0, 0, 1⟩, none,
   ⟨[⟨⟨⟨0, 0, 0⟩, ⟨0, 0, 0⟩, ⟨0, 0, 1⟩, -1⟩, ⟨0, 0, 0⟩, ⟨0, 0, 0⟩, [], [],
      .unknown, .unknown, .PointPoint, 0⟩], []⟩,
   [], ConvexPolyface.empty V3, ConvexPolyface.empty V3⟩

/-- Witness for C3: in a concrete update (fallback single-contact path)
every record of the resulting manifold carries a feature pair pushed
during that update. -/
theorem spec_C3_witness :
    ∃ st3, compute_new_contacts fx_basis fx_query_proj fx_iso fx_sm fx_iso
        fx_sm fx_pred fx_st0 = .ok st3
      ∧ (∀ r ∈ c3_after.contact_manifold.records,
          ∃ t ∈ st3.new_contacts, r.f1 = t.2.1 ∧ r.f2 = t.2.2)
      ∧ ∀ p1 p2 : FeatureId,
          (∀ t ∈ st3.new_contacts, ¬(p1 = t.2.1 ∧ p2 = t.2.2)) →
          ∀ r ∈ c3_after.contact_manifold.records, ¬(r.f1 = p1 ∧ r.f2 = p2) :=
  spec_C3 fx_basis fx_query_proj fx_iso fx_shape_sm fx_iso fx_shape_sm
    fx_pred fx_ids fx_st0 fx_sm fx_sm rfl rfl c3_after ⟨1, []⟩ rfl

theorem foldlM_err_of_mem {α β : Type} (f : β → α → Except String β)
    (l : List α) (a : α) :
    ∀ init, a ∈ l → (∀ b, ∃ e, f b a = .error e) →
      ∃ e, l.foldlM f init = .error e := by
  induction l with
  | nil => intro init ha _; cases ha
  | cons x xs ih =>
    intro init ha herr
    rcases List.mem_cons.mp ha with rfl | hmem
    · obtain ⟨e, he⟩ := herr init
      exact ⟨e, by rw [foldlM_cons_exc, he, exc_bind_err]⟩
    · cases hfx : f init x with
      | error e => exact ⟨e, by rw [foldlM_cons_exc, hfx, exc_bind_err]⟩
      | ok b =>
        obtain ⟨e, he⟩ := ih b hmem herr
        exact ⟨e, by rw [foldlM_cons_exc, hfx, exc_bind_ok, he]⟩

/-- C9: classifying a line-kinematic contact (`LinePoint`, `PointLine`, or
`LineLine`) whose owning polyface reports an edge feature with no
retrievable direction fails the call with the missing-direction defect
(embedding the Rust `direction().unwrap()` panics at source lines 132, 137,
143 and 144); for `LineLine` this covers a missing direction on either
side — in particular the case where only the second polyface's direction
is unretrievable, the `dir2` unwrap of line 144. It is never downgraded to
another kinematic tag or a direction-less result, and the defect is fatal
to the update call: whenever the raw-contact list drained by
`save_new_contacts_as_contact_manifold` contains — at any position — a
contact whose classification raises the defect, the commit fails with an
error, and so does the whole `update` call. -/
theorem spec_C9 :
    (∀ (m1 m2 : Iso) (pf1 pf2 : ConvexPolyface V3) (i j : ℕ),
      pf1.edge_dir (.edge i) = some none →
      contact_kinematic 3 m1 pf1 (.edge i) m2 pf2 (.vertex j)
        = .error missingDirMsg) ∧
    (∀ (m1 m2 : Iso) (pf1 pf2 : ConvexPolyface V3) (i j : ℕ),
      pf2.edge_dir (.edge j) = some none →
      contact_kinematic 3 m1 pf1 (.vertex i) m2 pf2 (.edge j)
        = .error missingDirMsg) ∧
    (∀ (m1 m2 : Iso) (pf1 pf2 : ConvexPolyface V3) (i j : ℕ) (o : Option V3),
      pf1.edge_dir (.edge i) = some none →
      pf2.edge_dir (.edge j) = some o →
      contact_kinematic 3 m1 pf1 (.edge i) m2 pf2 (.edge j)
        = .error missingDirMsg) ∧
    (∀ (m1 m2 : Iso) (pf1 pf2 : ConvexPolyface V3) (i j : ℕ) (d1 : V3),
      pf1.edge_dir (.edge i) = some (some d1) →
      pf2.edge_dir (.edge j) = some none →
      contact_kinematic 3 m1 pf1 (.edge i) m2 pf2 (.edge j)
        = .error missingDirMsg) ∧
    (∀ (S : Type) (m1 : Iso) (g1 : SupportMapImpl) (m2 : Iso)
      (g2 : SupportMapImpl) (ids : IdAllocator) (st : GenState S)
      (c : Contact V3) (f1 f2 : FeatureId),
      (c, f1, f2) ∈ st.new_contacts →
      contact_kinematic 3 m1 st.manifold1 f1 m2 st.manifold2 f2
        = .error missingDirMsg →
      ∃ e, save_new_contacts_as_contact_manifold m1 g1 m2 g2 ids st
        = .error e) ∧
    (∀ (S : Type) (basisOf : V3 → V3 × V3)
      (query : ℚ → S → Option V3 → GJKResult × S) (ma : Iso) (a : ShapeModel)
      (mb : Iso) (b : ShapeModel) (prediction : ContactPrediction)
      (ids : IdAllocator) (st : GenState S) (sma smb : SupportMapImpl)
      (st3 : GenState S) (c : Contact V3) (f1 f2 : FeatureId),
      a.as_support_map = some sma → b.as_support_map = some smb →
      compute_new_contacts basisOf query ma sma mb smb prediction st
        = .ok st3 →
      (c, f1, f2) ∈ st3.new_contacts →
      contact_kinematic 3 ma st3.manifold1 f1 mb st3.manifold2 f2
        = .error missingDirMsg →
      ∃ e, update basisOf query ma a mb b prediction ids st = .error e) := by
  have hsave : ∀ (S : Type) (m1 : Iso) (g1 : SupportMapImpl) (m2 : Iso)
      (g2 : SupportMapImpl) (ids : IdAllocator) (st : GenState S)
      (c : Contact V3) (f1 f2 : FeatureId),
      (c, f1, f2) ∈ st.new_contacts →
      contact_kinematic 3 m1 st.manifold1 f1 m2 st.manifold2 f2
        = .error missingDirMsg →
      ∃ e, save_new_contacts_as_contact_manifold m1 g1 m2 g2 ids st
        = .error e := by
    intro S m1 g1 m2 g2 ids st c f1 f2 hmem hk
    obtain ⟨e, he⟩ := foldlM_err_of_mem
      (fun (acc : ContactManifold × IdAllocator) (t : Tri3) => do
        let (c, f1, f2) := t
        let kin ← contact_kinematic 3 m1 st.manifold1 f1 m2 st.manifold2 f2
        let local1 := m1.inverse_transform_point c.world1
        let local2 := m2.inverse_transform_point c.world2
        let n1 := g1.normal_cone local1 f1
        let n2 := g2.normal_cone local2 f2
        let p := acc.1.push c local1 local2 n1 n2 f1 f2 kin acc.2
        pure (p.1, p.2.1))
      st.new_contacts (c, f1, f2)
      (st.contact_manifold.save_cache_and_clear ids) hmem
      (fun b => ⟨missingDirMsg, by dsimp only; rw [hk, exc_bind_err]⟩)
    refine ⟨e, ?_⟩
    unfold save_new_contacts_as_contact_manifold
    dsimp only
    rw [he, exc_bind_err]
  refine ⟨?_, ?_, ?_, ?_, hsave, ?_⟩
  · intro m1 m2 pf1 pf2 i j h
    simp [contact_kinematic, h, exceptOfOption, exc_bind_ok, exc_bind_err]
  · intro m1 m2 pf1 pf2 i j h
    simp [contact_kinematic, h, exceptOfOption, exc_bind_ok, exc_bind_err]
  · intro m1 m2 pf1 pf2 i j o h1 h2
    cases o <;>
      simp [contact_kinematic, h1, h2, exceptOfOption, exc_bind_ok,
        exc_bind_err]
  · intro m1 m2 pf1 pf2 i j d1 h1 h2
    simp [contact_kinematic, h1, h2, exceptOfOption, exc_bind_ok,
      exc_bind_err]
  · intro S basisOf query ma a mb b prediction ids st sma smb st3 c f1 f2
      ha hb hc hmem hk
    obtain ⟨e, he⟩ := hsave S ma sma mb smb ids st3 c f1 f2 hmem hk
    refine ⟨e, ?_⟩
    unfold update
    rw [ha, hb]
    dsimp only
    rw [hc, exc_bind_ok, he, exc_bind_err]

/-- Polyface whose edge 0 exists and has a retrievable direction (C9
witness, first side). -/
def c9_pf1 : ConvexPolyface V3 :=
  ⟨[], [], [], none, .unknown, [some ⟨1, 0, 0⟩]⟩

/-- Polyface whose edge 0 exists but has no retrievable direction (C9
witness, second side). -/
def c9_pf2 : ConvexPolyface V3 :=
  ⟨[], [], [], none, .unknown, [none]⟩

/-- Generator state for the C9 witness: the raw-contact list holds a
healthy contact first and, at a non-head position, an edge/edge contact
whose second edge direction is unretrievable. -/
def c9_st : GenState Unit :=
  ⟨(), none, none, ContactManifold.empty,
   [(⟨⟨0, 0, 0⟩, ⟨0, 0, 0⟩, ⟨0, 0, 1⟩, 0⟩, .vertex 0, .vertex 0),
    (⟨⟨0, 0, 0⟩, ⟨0, 0, 0⟩, ⟨0, 0, 1⟩, 0⟩, .edge 0, .edge 0)],
   c9_pf1, c9_pf2⟩

/-- Witness for C9: with the first edge direction retrievable and only the
second missing, the classifier fails with the missing-direction defect,
and a commit whose raw-contact list holds that defective contact at a
non-head position fails the whole call. -/
theorem spec_C9_witness :
    contact_kinematic 3 fx_iso c9_pf1 (.edge 0) fx_iso c9_pf2 (.edge 0)
      = .error missingDirMsg
    ∧ ∃ e, save_new_contacts_as_contact_manifold fx_iso fx_sm fx_iso fx_sm
        fx_ids c9_st = .error e :=
  ⟨spec_C9.2.2.2.1 fx_iso fx_iso c9_pf1 c9_pf2 0 0 ⟨1, 0, 0⟩ rfl rfl,
   spec_C9.2.2.2.2.1 Unit fx_iso fx_sm fx_iso fx_sm fx_ids c9_st
     ⟨⟨0, 0, 0⟩, ⟨0, 0, 0⟩, ⟨0, 0, 1⟩, 0⟩ (.edge 0) (.edge 0) (by decide)
     rfl⟩
